import Mathlib
set_option maxRecDepth 100000
set_option maxHeartbeats 2000000

/-!
Verification of the QBA (Quantum Based Allocation) allocator core,
a shallow embedding of src/src/hotspot/share/runtime/qba.cpp.

Modelling conventions:
* Machine `uint64_t` values are `Nat` kept below `2^64`; where C++ overflow or
  wrap-around matters an explicit `% 2^64` appears.
* C++ `int` values that can carry the sentinel `NOT_FOUND` (`~0`, i.e. `-1`)
  are modelled as `Int`; other indices and counts are `Nat`.
* Addresses are `Nat`; the null pointer is `0`.
* The embedding gives the sequential (single-thread, no interference)
  semantics: a `compare_exchange_weak` against a freshly loaded value always
  succeeds.  For `Registry::conditionallySetMaskRange`, whose contract is
  about CAS failure, a separate definition threads an oracle of CAS outcomes
  (weak CAS may fail spuriously even without interference).
* Unbounded C++ loops are written with an explicit `fuel` argument; every
  entry point passes fuel strictly larger than the loop's iteration bound, so
  the fuel-exhausted branch is unreachable on the states of interest.
* Shift counts are reduced `% 64`, the x86-64 `shl`/`shr` behaviour; the
  release build (`NDEBUG` is defined at the top of qba.cpp) executes shifts
  with negative or >= 64 counts on some corner paths.
-/

namespace QBA

/-- Number of bits in a 64-bit word, 2^64, and the all-ones word. -/
def TWO64 : Nat := 2 ^ 64

def BITS_PER_WORD_ORDER : Nat := 6

def BITS_PER_WORD : Nat := 64

def ALL_ONES : Nat := TWO64 - 1

/-- NOT_FOUND sentinel, `~0` as a C++ int. -/
def NOT_FOUND : Int := -1

def MAX_ADDRESS_ORDER : Nat := 52

def MAX_ALLOCATION_ORDER : Nat := MAX_ADDRESS_ORDER - 4

def MAX_ORDER : Nat := BITS_PER_WORD

def MAX_ALLOCATION_SIZE : Nat := 2 ^ MAX_ALLOCATION_ORDER

def MAX_PARTITION_QUANTUM : Nat := 16 * 1024

def MAX_QUANTUM_ALLOCATORS : Nat := 3

def MAX_REGISTRY_BIT_COUNT : Nat := MAX_PARTITION_QUANTUM

def MAX_REGISTRY_WORD_COUNT : Nat := MAX_REGISTRY_BIT_COUNT >>> BITS_PER_WORD_ORDER

def MAX_QUANTUM_ALLOCATOR_ORDERS : Nat := 8

def SMALLEST_SIZE_ORDER : Nat := 3

def LARGEST_SIZE_ORDER : Nat :=
  SMALLEST_SIZE_ORDER + MAX_QUANTUM_ALLOCATORS * MAX_QUANTUM_ALLOCATOR_ORDERS - 1

def MAX_FIT_DEGREE : Nat := 4

def PAGE_SIZE : Nat := 4096

/-- One megabyte, the minimum slab quantum (`M` in qba.cpp). -/
def MEGABYTE : Nat := 2 ^ 20

/-- Base-2 logarithm of a 64-bit value by halving (structural recursion so
that the kernel can evaluate it; agrees with Nat.log2 below 2^64). -/
def log2w64 : Nat → Nat → Nat
  | 0, _ => 0
  | fuel + 1, v => if 2 ≤ v then log2w64 fuel (v / 2) + 1 else 0

def log2w (value : Nat) : Nat := log2w64 64 value

/-- clz: count of leading zero bits of a 64-bit value (zero yields 64). -/
def clz (value : Nat) : Nat :=
  if value = 0 then BITS_PER_WORD else 63 - log2w value

/-- ctz: count of trailing zero bits of a 64-bit value (zero yields 64);
`__builtin_ctzll` computed through the isolated lowest set bit. -/
def ctz (value : Nat) : Nat :=
  if value = 0 then BITS_PER_WORD else log2w (value &&& (TWO64 - value))

/-- popcount of a 64-bit value, by 64 halving steps. -/
def popcountAux : Nat → Nat → Nat
  | 0, _ => 0
  | fuel + 1, v => v % 2 + popcountAux fuel (v / 2)

def popcount (value : Nat) : Nat :=
  if value = 0 then 0 else popcountAux 64 value

/-- twoToOrder: `1UL << order`; the shift count is reduced mod 64 (x86-64). -/
def twoToOrder (order : Nat) : Nat := 1 <<< (order % 64)

/-- MASK(POWER2): `POWER2 - 1` in uint64 arithmetic (MASK(0) wraps to all ones). -/
def maskOf (powerOf2 : Nat) : Nat := (powerOf2 + TWO64 - 1) % TWO64

/-- loMask: mask of n bits at the low end of a word. -/
def loMask (n : Nat) : Nat := maskOf (twoToOrder n)

/-- hiMask: mask of n bits at the high end of a word. -/
def hiMask (n : Nat) : Nat := ALL_ONES ^^^ loMask (BITS_PER_WORD - n)

/-- isPowerOf2 (zero counts as a power of two). -/
def isPowerOf2 (value : Nat) : Bool := value &&& maskOf value = 0

/-- roundUp value to a multiple of the given power of two. -/
def roundUp (value powerOf2 : Nat) : Nat :=
  ((value + maskOf powerOf2) % TWO64) &&& (ALL_ONES ^^^ maskOf powerOf2)

/-- roundUpPowerOf2: round up to the next power of two; zero yields zero. -/
def roundUpPowerOf2 (value : Nat) : Nat :=
  if value = 0 then 0 else 1 <<< ((BITS_PER_WORD - clz (value - 1)) % 64)

/-- sizeToOrder: allocation size to power-of-two order; sizes <= 8 yield 3. -/
def sizeToOrder (size : Nat) : Nat :=
  if 8 < size then BITS_PER_WORD - clz (size - 1) else 3

/-- orderToSize: 2^order. -/
def orderToSize (order : Nat) : Nat := twoToOrder order

/-- orderMul: multiplication by 2^order as a shift. -/
def orderMul (value : Nat) (order : Nat) : Nat := value <<< order

/-- orderDiv: division by 2^order as a shift. -/
def orderDiv (value : Nat) (order : Nat) : Nat := value >>> order

/-- lowestZeroBit: isolated one bit at the lowest zero bit position
(`inverse & -inverse` in uint64 arithmetic). -/
def lowestZeroBit (value : Nat) : Nat :=
  let inverse := ALL_ONES ^^^ value
  inverse &&& ((TWO64 - inverse) % TWO64)

/-- Shift left whose count is a C++ int: the count is taken mod 64 as on
x86-64 (a negative count is UB in C++ and reachable only on the full-word
corner of findFreeRange in the NDEBUG build). -/
def shlInt (x : Nat) (n : Int) : Nat := (x <<< (n % 64).toNat) % TWO64

/-- lowestZeroBitsPosition: bit index of the lowest run of n zero bits, or
NOT_FOUND.  The C++ loop runs while `value != ALL_ONES`; every continuing
iteration strictly adds set bits, so 65 rounds of fuel are never exhausted. -/
def lowestZeroBitsPositionAux : Nat → Nat → Nat → Int
  | 0, _, _ => NOT_FOUND
  | fuel + 1, value, n =>
    if value = ALL_ONES then NOT_FOUND
    else
      let lowestBit := lowestZeroBit value
      let rangeMask := (((lowestBit <<< (n % 64)) % TWO64) + TWO64 - lowestBit) % TWO64
      if value &&& rangeMask = 0 then ((BITS_PER_WORD - 1 - clz lowestBit : Nat) : Int)
      else lowestZeroBitsPositionAux fuel (value ||| ((value + TWO64 - lowestBit) % TWO64)) n

def lowestZeroBitsPosition (value : Nat) (n : Nat) : Int :=
  lowestZeroBitsPositionAux 65 value n

/-- The Registry class: an atomic bitmap.  `bits` is the fixed
`_bits[MAX_REGISTRY_WORD_COUNT]` array (zero-initialised); reads beyond the
list default to 0, matching the zero-committed administrative arena. -/
structure Registry where
  maximumIndex : Nat
  maximumWordIndex : Nat
  lowestIndex : Nat
  bits : List Nat
deriving DecidableEq, Repr

/-- wordsNeeded: number of words needed to represent count bits. -/
def wordsNeeded (count : Nat) : Nat :=
  orderDiv (count + BITS_PER_WORD - 1) BITS_PER_WORD_ORDER

/-- Registry constructor for a given maximumIndex. -/
def mkRegistry (maximumIndex : Nat) : Registry :=
  { maximumIndex := maximumIndex
    maximumWordIndex := wordsNeeded maximumIndex
    lowestIndex := 0
    bits := List.replicate MAX_REGISTRY_WORD_COUNT 0 }

def Registry.getBits (r : Registry) (wordIndex : Nat) : Nat :=
  r.bits.getD wordIndex 0

/-- Store a word value (the sequential effect of a successful CAS/fetch-op). -/
def Registry.setWord (r : Registry) (wordIndex : Nat) (value : Nat) : Registry :=
  { r with bits := r.bits.set wordIndex value }

def Registry.getWordIndex (index : Nat) : Nat := index >>> BITS_PER_WORD_ORDER

def Registry.getBitIndex (index : Nat) : Nat := index &&& 63

def Registry.getIndex (wordIndex bitIndex : Nat) : Nat :=
  (wordIndex <<< BITS_PER_WORD_ORDER) + bitIndex

def Registry.isValidIndex (r : Registry) (index : Nat) : Bool :=
  index < r.maximumIndex

def Registry.isValidCount (r : Registry) (count : Nat) : Bool :=
  count ≤ r.maximumIndex

/-- setMask: unconditional fetch-or; returns true if the mask bits were all
previously zero. -/
def Registry.setMask (r : Registry) (wordIndex mask : Nat) : Bool × Registry :=
  if mask = 0 then (true, r)
  else
    let old := r.getBits wordIndex
    (old &&& mask == 0, r.setWord wordIndex (old ||| mask))

/-- clearMask: unconditional fetch-and with the complemented mask; returns
true if some mask bit was previously set. -/
def Registry.clearMask (r : Registry) (wordIndex mask : Nat) : Bool × Registry :=
  if mask = 0 then (true, r)
  else
    let old := r.getBits wordIndex
    (old &&& mask != 0, r.setWord wordIndex (old &&& (ALL_ONES ^^^ mask)))

/-- isSet: weak test of a single bit. -/
def Registry.isSet (r : Registry) (index : Nat) : Bool :=
  r.getBits (Registry.getWordIndex index) &&& twoToOrder (Registry.getBitIndex index) ≠ 0

/-- set: conditionally set a single bit (via setMask). -/
def Registry.set (r : Registry) (index : Nat) : Bool × Registry :=
  r.setMask (Registry.getWordIndex index) (twoToOrder (Registry.getBitIndex index))

/-- clear: conditionally clear a single bit (via clearMask). -/
def Registry.clear (r : Registry) (index : Nat) : Bool × Registry :=
  r.clearMask (Registry.getWordIndex index) (twoToOrder (Registry.getBitIndex index))

/-- conditionallySetMask in the sequential semantics: the CAS against the
freshly loaded word always succeeds, so the mask bits are or-ed in. -/
def Registry.conditionallySetMask (r : Registry) (wordIndex mask : Nat) : Bool × Registry :=
  if mask = 0 then (true, r)
  else (true, r.setWord wordIndex (r.getBits wordIndex ||| mask))

/-- clearMaskRange middle loop: `for i in 0..count` clear word
`firstWordIndex + i + 1` to zero (clearMask with ALL_ONES). -/
def Registry.clearMiddleWords (r : Registry) (firstWordIndex : Nat) : Nat → Nat → Registry
  | _, 0 => r
  | i, remaining + 1 =>
    Registry.clearMiddleWords
      ((r.clearMask (firstWordIndex + i + 1) ALL_ONES).2) firstWordIndex (i + 1) remaining

/-- clearMaskRange: unconditionally clear multi-word contiguous bits set by
conditionallySetMaskRange. -/
def Registry.clearMaskRange (r : Registry) (firstWordIndex count firstMask lastMask : Nat) :
    Registry :=
  let r1 := (r.clearMask firstWordIndex firstMask).2
  let r2 := Registry.clearMiddleWords r1 firstWordIndex 0 count
  (r2.clearMask (firstWordIndex + count + 1) lastMask).2

/-- One weak-CAS outcome from the oracle; an empty oracle means success. -/
def oracleNext : List Bool → Bool × List Bool
  | [] => (true, [])
  | b :: rest => (b, rest)

/-- conditionallySetMask under a weak-CAS oracle: a zero mask performs no CAS
and succeeds; otherwise the oracle decides whether the single
compare-exchange-weak succeeds (it may fail spuriously), a failure leaving the
word unchanged. -/
def Registry.conditionallySetMaskO (r : Registry) (oracle : List Bool)
    (wordIndex mask : Nat) : Bool × Registry × List Bool :=
  if mask = 0 then (true, r, oracle)
  else
    let (ok, oracle1) := oracleNext oracle
    if ok then (true, r.setWord wordIndex (r.getBits wordIndex ||| mask), oracle1)
    else (false, r, oracle1)

/-- Middle-word loop of conditionallySetMaskRange under the oracle:
`done` middle words are already set, `remaining` are left; on a failure the
words set so far (first word mask plus `done` middles) are rolled back. -/
def Registry.condSetMaskRangeLoop (firstWordIndex firstMask lastMask : Nat) :
    Registry → List Bool → Nat → Nat → Bool × Registry × List Bool
  | r, oracle, done, 0 =>
    let (okLast, r1, oracle1) :=
      r.conditionallySetMaskO oracle (firstWordIndex + done + 1) lastMask
    if okLast then (true, r1, oracle1)
    else (false, r1.clearMaskRange firstWordIndex done firstMask 0, oracle1)
  | r, oracle, done, remaining + 1 =>
    let (okMid, r1, oracle1) :=
      r.conditionallySetMaskO oracle (firstWordIndex + done + 1) ALL_ONES
    if okMid then
      Registry.condSetMaskRangeLoop firstWordIndex firstMask lastMask r1 oracle1
        (done + 1) remaining
    else (false, r1.clearMaskRange firstWordIndex done firstMask 0, oracle1)

/-- conditionallySetMaskRange: set the first word mask, `count` middle words
to ALL_ONES, then the last word mask, one CAS at a time; on any failure,
unconditionally clear whatever was already set and report failure. -/
def Registry.conditionallySetMaskRangeO (r : Registry) (oracle : List Bool)
    (firstWordIndex count firstMask lastMask : Nat) : Bool × Registry × List Bool :=
  let (okFirst, r1, oracle1) := r.conditionallySetMaskO oracle firstWordIndex firstMask
  if okFirst then
    Registry.condSetMaskRangeLoop firstWordIndex firstMask lastMask r1 oracle1 0 count
  else (false, r1, oracle1)

/-- conditionallySetMaskRange in the sequential semantics (every CAS
succeeds): the first word, the middles and the last word are all set. -/
def Registry.conditionallySetMaskRange (r : Registry)
    (firstWordIndex count firstMask lastMask : Nat) : Bool × Registry :=
  let (ok, r1, _) := r.conditionallySetMaskRangeO [] firstWordIndex count firstMask lastMask
  (ok, r1)

/-- updateLowestFreeWordIndex: lower the hint to wordIndex if it is smaller
(the CAS loop, run sequentially). -/
def Registry.updateLowestFreeWordIndex (r : Registry) (wordIndex : Nat) : Registry :=
  if r.lowestIndex ≤ wordIndex then r else { r with lowestIndex := wordIndex }

def Registry.updateLowestIndex (r : Registry) (index : Nat) : Registry :=
  r.updateLowestFreeWordIndex (Registry.getWordIndex index)

/-- free: unconditional clear of a bit, then update the lowest index. -/
def Registry.free (r : Registry) (index : Nat) : Registry :=
  ((r.clear index).2).updateLowestIndex index

/-- incrementLowestFreeWordIndex, sequential: the CAS from wordIndex to
wordIndex+1 succeeds exactly when the hint still equals wordIndex; on failure
the hint value stored by the other writer is used. -/
def Registry.incrementLowestFreeWordIndex (r : Registry) (wordIndex : Nat) : Registry × Nat :=
  if r.lowestIndex = wordIndex then ({ r with lowestIndex := wordIndex + 1 }, wordIndex + 1)
  else (r, r.lowestIndex)

/-- findFree main loop.  Fuel exceeds `maximumWordIndex + 1 - wordIndex` at
every entry, so the fuel-out branch is unreachable. -/
def Registry.findFreeLoop : Nat → Registry → Nat → Int × Registry
  | 0, r, _ => (NOT_FOUND, r)
  | fuel + 1, r, wordIndex =>
    if wordIndex = r.maximumWordIndex then (NOT_FOUND, r)
    else
      let value := r.getBits wordIndex
      if value = ALL_ONES then
        let (r1, next) := r.incrementLowestFreeWordIndex wordIndex
        Registry.findFreeLoop fuel r1 next
      else
        let bitIndex := ctz (ALL_ONES ^^^ value)
        let index := Registry.getIndex wordIndex bitIndex
        if r.maximumIndex ≤ index then (NOT_FOUND, r)
        else ((index : Int), r.setWord wordIndex (value ||| twoToOrder bitIndex))

/-- findFree: lowest free bit starting from the lowest-index hint. -/
def Registry.findFree (r : Registry) : Int × Registry :=
  Registry.findFreeLoop (r.maximumWordIndex + 1) r r.lowestIndex

/-- isEmpty: best-guess emptiness; exact in the sequential semantics. -/
def Registry.isEmpty (r : Registry) : Bool :=
  if r.lowestIndex = 0 then (List.range r.maximumWordIndex).all (fun i => r.getBits i == 0)
  else false

/-- count: population count over all words. -/
def Registry.count (r : Registry) : Nat :=
  ((List.range r.maximumWordIndex).map (fun i => popcount (r.getBits i))).sum

/-- findFreeRange scan loop.  NOTE: the C++ bounds the loop's word index by
`_maximumIndex` (a bit count), not `_maximumWordIndex`; the model reproduces
this.  In the sequential semantics every CAS attempt succeeds, so each visited
word either returns an index or returns NOT_FOUND. -/
def Registry.findFreeRangeLoop : Nat → Registry → Nat → Nat → Int × Registry
  | 0, r, _, _ => (NOT_FOUND, r)
  | fuel + 1, r, count, wordIndex =>
    if wordIndex < r.maximumIndex then
      let value := r.getBits wordIndex
      if count ≤ BITS_PER_WORD then
        let bitIndex := lowestZeroBitsPosition value count
        let index : Int := 64 * wordIndex + bitIndex
        if (r.maximumIndex : Int) - count ≤ index then (NOT_FOUND, r)
        else if bitIndex + count ≤ 64 then
          let (ok, r1) := r.conditionallySetMask wordIndex (shlInt (loMask count) bitIndex)
          if ok then (index, r1)
          else Registry.findFreeRangeLoop fuel r1 count (wordIndex + 1)
        else
          let (ok, r1) := r.conditionallySetMaskRange wordIndex 0
            (shlInt (loMask count) bitIndex) (loMask ((count : Int) - bitIndex).toNat)
          if ok then (index, r1)
          else Registry.findFreeRangeLoop fuel r1 count (wordIndex + 1)
      else
        let leading := clz value
        let index : Int := 64 * wordIndex + 64 - leading
        if (r.maximumIndex : Int) - count ≤ index then (NOT_FOUND, r)
        else
          let remaining := count - leading
          let remainingWords := Registry.getWordIndex remaining
          let remainingBits := Registry.getBitIndex remaining
          let (ok, r1) := r.conditionallySetMaskRange wordIndex remainingWords
            (hiMask leading) (loMask remainingBits)
          if ok then (index, r1)
          else Registry.findFreeRangeLoop fuel r1 count (wordIndex + 1)
    else (NOT_FOUND, r)

/-- findFreeRange: count consecutive free bits; count 0 is NOT_FOUND and
count 1 delegates to findFree. -/
def Registry.findFreeRange (r : Registry) (count : Nat) : Int × Registry :=
  if count = 0 then (NOT_FOUND, r)
  else if count = 1 then r.findFree
  else Registry.findFreeRangeLoop (r.maximumIndex + 1) r count r.lowestIndex

/-- Word indices passed to getBits by the findFreeRange scan loop, in order.
The definition mirrors findFreeRangeLoop, recording the index of every word
read. -/
def Registry.findFreeRangeReadsLoop : Nat → Registry → Nat → Nat → List Nat → List Nat
  | 0, _, _, _, acc => acc
  | fuel + 1, r, count, wordIndex, acc =>
    if wordIndex < r.maximumIndex then
      let value := r.getBits wordIndex
      let acc1 := acc ++ [wordIndex]
      if count ≤ BITS_PER_WORD then
        let bitIndex := lowestZeroBitsPosition value count
        let index : Int := 64 * wordIndex + bitIndex
        if (r.maximumIndex : Int) - count ≤ index then acc1
        else if bitIndex + count ≤ 64 then
          let (ok, r1) := r.conditionallySetMask wordIndex (shlInt (loMask count) bitIndex)
          if ok then acc1
          else Registry.findFreeRangeReadsLoop fuel r1 count (wordIndex + 1) acc1
        else
          let (ok, r1) := r.conditionallySetMaskRange wordIndex 0
            (shlInt (loMask count) bitIndex) (loMask ((count : Int) - bitIndex).toNat)
          if ok then acc1
          else Registry.findFreeRangeReadsLoop fuel r1 count (wordIndex + 1) acc1
      else
        let leading := clz value
        let index : Int := 64 * wordIndex + 64 - leading
        if (r.maximumIndex : Int) - count ≤ index then acc1
        else
          let remaining := count - leading
          let (ok, r1) := r.conditionallySetMaskRange wordIndex (Registry.getWordIndex remaining)
            (hiMask leading) (loMask (Registry.getBitIndex remaining))
          if ok then acc1
          else Registry.findFreeRangeReadsLoop fuel r1 count (wordIndex + 1) acc1
    else acc

/-- Word reads performed by findFreeRange for a count of at least 2 (counts
0 and 1 take the shortcut paths, which this trace does not cover). -/
def Registry.findFreeRangeReads (r : Registry) (count : Nat) : List Nat :=
  if count ≤ 1 then []
  else Registry.findFreeRangeReadsLoop (r.maximumIndex + 1) r count r.lowestIndex []

/-- RegistryIsSetIterator::nextSet word loop. -/
def Registry.nextSetLoop : Nat → Registry → Nat → Nat → Int
  | 0, _, _, _ => NOT_FOUND
  | fuel + 1, r, wordIndex, bitIndex =>
    if wordIndex < r.maximumWordIndex then
      let value := r.getBits wordIndex &&& (ALL_ONES ^^^ maskOf (twoToOrder bitIndex))
      if value ≠ 0 then
        let b := ctz value
        let index := Registry.getIndex wordIndex b
        if r.maximumIndex ≤ index then NOT_FOUND else (index : Int)
      else Registry.nextSetLoop fuel r (wordIndex + 1) 0
    else NOT_FOUND

/-- RegistryIsSetIterator::nextSet from a saved bit index: index of the next
set bit at or above `index`, or NOT_FOUND. -/
def Registry.nextSetFrom (r : Registry) (index : Nat) : Int :=
  Registry.nextSetLoop (r.maximumWordIndex + 1) r
    (Registry.getWordIndex index) (Registry.getBitIndex index)

/-- The Partition class: a single same-size quantum pool.  `size` is the
Space extent (the partition size); `quantumAllocator` is the back-pointer to
the managing QuantumAllocator, as the index of that allocator in the
Director.  An uninitialised partition slot is the all-zero record, matching
the zero-committed arena memory the slots live in. -/
structure Partition where
  base : Nat
  size : Nat
  quantumAllocator : Nat
  quantumSizeOrder : Nat
  registry : Registry
  sideDataSize : Nat
  sidedata : Nat
deriving DecidableEq, Repr

/-- Zero-filled (uninitialised) partition slot. -/
def zeroPartition : Partition :=
  { base := 0, size := 0, quantumAllocator := 0, quantumSizeOrder := 0
    registry := { maximumIndex := 0, maximumWordIndex := 0, lowestIndex := 0
                  bits := List.replicate MAX_REGISTRY_WORD_COUNT 0 }
    sideDataSize := 0, sidedata := 0 }

/-- Partition constructor: the registry is sized to partitionSize divided by
the quantum size. -/
def mkPartition (quantumAllocator : Nat) (base partitionSize quantumSize : Nat)
    (sideDataSize sideData : Nat) : Partition :=
  { base := base
    size := partitionSize
    quantumAllocator := quantumAllocator
    quantumSizeOrder := sizeToOrder quantumSize
    registry := mkRegistry (orderDiv partitionSize (sizeToOrder quantumSize))
    sideDataSize := sideDataSize
    sidedata := sideData }

/-- Space::in for a partition: base <= address < limit. -/
def Partition.inSpace (p : Partition) (address : Nat) : Bool :=
  p.base ≤ address && address < p.base + p.size

def Partition.quantumOrder (p : Partition) : Nat := p.quantumSizeOrder

def Partition.quantumSize (p : Partition) : Nat := orderToSize p.quantumSizeOrder

def Partition.quantumIndexOf (p : Partition) (address : Nat) : Nat :=
  orderDiv (address - p.base) p.quantumSizeOrder

def Partition.isEmpty (p : Partition) : Bool := p.registry.isEmpty

/-- Partition::allocate: the size argument is ignored (all quanta in the
partition are the same size); the address is derived from the first free
registry bit. -/
def Partition.allocate (p : Partition) (_size : Nat) : Option Nat × Partition :=
  let (index, reg1) := p.registry.findFree
  let p1 := { p with registry := reg1 }
  if index = NOT_FOUND then (none, p1)
  else (some (p.base + orderMul index.toNat p.quantumSizeOrder), p1)

/-- Partition::deallocate: free the quantum registry bit of the address. -/
def Partition.deallocate (p : Partition) (address : Nat) : Partition :=
  { p with registry := p.registry.free (p.quantumIndexOf address) }

/-- Partition::allocateCount: count consecutive quanta, or none. -/
def Partition.allocateCount (p : Partition) (_size : Nat) (count : Nat) :
    Option Nat × Partition :=
  if orderDiv p.size p.quantumSizeOrder < count then (none, p)
  else
    let (index, reg1) := p.registry.findFreeRange count
    let p1 := { p with registry := reg1 }
    if index = NOT_FOUND then (none, p1)
    else (some (p.base + orderMul index.toNat p.quantumSizeOrder), p1)

/-- Partition::allocateBulkContiguous: claim count consecutive registry bits
and synthesise the count consecutive addresses. -/
def Partition.allocateBulkContiguous (p : Partition) (count : Nat) :
    Nat × List Nat × Partition :=
  let (index, reg1) := p.registry.findFreeRange count
  let p1 := { p with registry := reg1 }
  if index = NOT_FOUND then (0, [], p1)
  else
    (count,
     (List.range count).map (fun i => p.base + orderMul (index.toNat + i) p.quantumSizeOrder),
     p1)

def Partition.allocationSize (p : Partition) (_address : Nat) : Nat := p.quantumSize

/-- Partition::allocationBase: mask the address down to its quantum base. -/
def Partition.allocationBase (p : Partition) (address : Nat) : Nat :=
  address &&& (ALL_ONES ^^^ maskOf p.quantumSize)

def Partition.allocationSideData (p : Partition) (address : Nat) : Nat :=
  p.sidedata + p.quantumIndexOf address * p.sideDataSize

/-- Partition::nextAllocation: next set registry bit strictly after the
address's quantum (the entry point always receives a non-null address). -/
def Partition.nextAllocation (p : Partition) (address : Nat) : Option Nat :=
  let start := if address ≠ 0 then p.quantumIndexOf address + 1 else 0
  let index := p.registry.nextSetFrom start
  if index = NOT_FOUND then none
  else some (p.base + orderMul index.toNat p.quantumSizeOrder)

/-- AllocateBulkIterator inner loop over one pre-claimed word snapshot.
Returns the grown address buffer, the final snapshot value, the partition
(its registry is written on the buffer-full stop path) and whether iteration
stopped because the buffer filled.  The snapshot gains a bit per round, so 65
rounds of fuel are never exhausted. -/
def Partition.bulkWordLoop : Nat → Partition → Nat → Nat → Nat → List Nat →
    List Nat × Nat × Partition × Bool
  | 0, p, _, value, _, acc => (acc, value, p, false)
  | fuel + 1, p, wordIndex, value, count, acc =>
    if value = ALL_ONES then (acc, value, p, false)
    else
      let lowestBit := lowestZeroBit value
      let bitIndex := BITS_PER_WORD - 1 - clz lowestBit
      let index := Registry.getIndex wordIndex bitIndex
      if p.registry.maximumIndex ≤ index then (acc, value, p, false)
      else if acc.length < count then
        Partition.bulkWordLoop fuel p wordIndex (value ||| lowestBit) count
          (acc ++ [p.base + orderMul index p.quantumSizeOrder])
      else
        let p1 :=
          if value ≠ ALL_ONES then
            { p with registry := (p.registry.clearMask wordIndex (ALL_ONES ^^^ value)).2 }
          else p
        (acc, value, p1, true)

/-- AllocateBulkIterator word loop: pre-set every bit of each scanned word,
emit the addresses of the zero bits of the snapshot, and clear the claimed
but unconsumed bits at word end or when the buffer fills. -/
def Partition.bulkIterateLoop : Nat → Partition → Nat → Nat → List Nat →
    List Nat × Partition
  | 0, p, _, _, acc => (acc, p)
  | fuel + 1, p, wordIndex, count, acc =>
    if wordIndex < p.registry.maximumWordIndex then
      let value := p.registry.getBits wordIndex
      let p1 :=
        if value ≠ ALL_ONES then
          { p with registry := (p.registry.conditionallySetMask wordIndex ALL_ONES).2 }
        else p
      let (acc1, value1, p2, stopped) := Partition.bulkWordLoop 65 p1 wordIndex value count acc
      if stopped then (acc1, p2)
      else
        let p3 :=
          if value1 ≠ ALL_ONES then
            { p2 with registry := (p2.registry.clearMask wordIndex (ALL_ONES ^^^ value1)).2 }
          else p2
        Partition.bulkIterateLoop fuel p3 (wordIndex + 1) count acc1
    else (acc, p)

/-- Partition::allocateBulk (the AllocateBulkIterator form): allocate up to
count addresses, returning how many were obtained and their addresses. -/
def Partition.allocateBulk (p : Partition) (count : Nat) : Nat × List Nat × Partition :=
  let (acc, p1) :=
    Partition.bulkIterateLoop (p.registry.maximumWordIndex + 1) p p.registry.lowestIndex count []
  (acc.length, acc, p1)

/-- A roster entry: a pointer to one of the Director's allocator objects.
Pointer identity is modelled by indices (QuantumAllocator number, and the
partition's slot within it). -/
inductive AllocatorRef where
  | nullAllocator : AllocatorRef
  | quantumAllocator (qaIndex : Nat) : AllocatorRef
  | partitionAllocator (qaIndex pIndex : Nat) : AllocatorRef
  | slabAllocator : AllocatorRef
deriving DecidableEq, Repr

/-- The AllocatorRoster: 64 atomic allocator pointers indexed by order. -/
abbrev Roster := List AllocatorRef

def AllocatorRoster.setAllocator (roster : Roster) (ref : AllocatorRef) (order : Nat) :
    Roster :=
  roster.set order ref

def AllocatorRoster.getAllocator (roster : Roster) (order : Nat) : AllocatorRef :=
  roster.getD order AllocatorRef.nullAllocator

/-- setAllocators loop: assign the allocator to `remaining` orders starting
at loOrder. -/
def AllocatorRoster.setAllocatorsLoop (ref : AllocatorRef) : Roster → Nat → Nat → Roster
  | roster, _, 0 => roster
  | roster, loOrder, remaining + 1 =>
    AllocatorRoster.setAllocatorsLoop ref (roster.set loOrder ref) (loOrder + 1) remaining

/-- AllocatorRoster::setAllocators: assign the allocator to the orders in
[loOrder, hiOrder). -/
def AllocatorRoster.setAllocators (roster : Roster) (ref : AllocatorRef)
    (loOrder hiOrder : Nat) : Roster :=
  AllocatorRoster.setAllocatorsLoop ref roster loOrder (hiOrder - loOrder)

/-- The QuantumAllocator class: a family of partitions covering 8 size
orders.  `size` is the Space extent, partitionSize * partitionCount. -/
structure QuantumAllocator where
  base : Nat
  size : Nat
  smallestSizeOrder : Nat
  largestSizeOrder : Nat
  partitionSizeOrder : Nat
  partitionCount : Nat
  partitionSize : Nat
  partitions : List Partition
  partitionRegistry : Registry
  orderRegistry : List Registry
  sideDataSize : Nat
  sideData : Nat
deriving DecidableEq, Repr

/-- QuantumAllocator constructor: fresh registries, uninitialised (zeroed)
partition slots, one order registry per managed order. -/
def mkQuantumAllocator (smallestSizeOrder largestSizeOrder partitionSizeOrder
    partitionCount : Nat) (base : Nat) (sideDataSize sideData : Nat) : QuantumAllocator :=
  { base := base
    size := orderToSize partitionSizeOrder * partitionCount
    smallestSizeOrder := smallestSizeOrder
    largestSizeOrder := largestSizeOrder
    partitionSizeOrder := partitionSizeOrder
    partitionCount := partitionCount
    partitionSize := orderToSize partitionSizeOrder
    partitions := List.replicate partitionCount zeroPartition
    partitionRegistry := mkRegistry partitionCount
    orderRegistry := List.replicate MAX_QUANTUM_ALLOCATOR_ORDERS (mkRegistry partitionCount)
    sideDataSize := sideDataSize
    sideData := sideData }

def QuantumAllocator.inSpace (qa : QuantumAllocator) (address : Nat) : Bool :=
  qa.base ≤ address && address < qa.base + qa.size

def QuantumAllocator.getPartition (qa : QuantumAllocator) (partitionIndex : Nat) : Partition :=
  qa.partitions.getD partitionIndex zeroPartition

def QuantumAllocator.setPartition (qa : QuantumAllocator) (partitionIndex : Nat)
    (p : Partition) : QuantumAllocator :=
  { qa with partitions := qa.partitions.set partitionIndex p }

def QuantumAllocator.getOrderRegistry (qa : QuantumAllocator) (orderIndex : Nat) : Registry :=
  qa.orderRegistry.getD orderIndex (mkRegistry 0)

def QuantumAllocator.setOrderRegistry (qa : QuantumAllocator) (orderIndex : Nat)
    (reg : Registry) : QuantumAllocator :=
  { qa with orderRegistry := qa.orderRegistry.set orderIndex reg }

/-- getOrderIndex: the order of the size, relative to the smallest order. -/
def QuantumAllocator.getOrderIndex (qa : QuantumAllocator) (size : Nat) : Nat :=
  sizeToOrder size - qa.smallestSizeOrder

/-- getPartitionIndex: partition slot from an address in the space. -/
def QuantumAllocator.getPartitionIndex (qa : QuantumAllocator) (address : Nat) : Nat :=
  orderDiv (address - qa.base) qa.partitionSizeOrder

def QuantumAllocator.partitionBase (qa : QuantumAllocator) (partitionIndex : Nat) : Nat :=
  qa.base + orderMul partitionIndex qa.partitionSizeOrder

/-- newPartition: (re)initialise the slot for quanta of the given size. -/
def QuantumAllocator.newPartition (qa : QuantumAllocator) (qaIndex partitionIndex : Nat)
    (size : Nat) : QuantumAllocator :=
  qa.setPartition partitionIndex
    (mkPartition qaIndex (qa.partitionBase partitionIndex) qa.partitionSize size
      qa.sideDataSize
      (qa.sideData + qa.sideDataSize * partitionIndex * MAX_PARTITION_QUANTUM))

/-- allocatePartition: claim a free partition slot (System::commit of the
partition's backing memory does not change the allocator state). -/
def QuantumAllocator.allocatePartition (qa : QuantumAllocator) : Int × QuantumAllocator :=
  let (partitionIndex, preg) := qa.partitionRegistry.findFree
  (partitionIndex, { qa with partitionRegistry := preg })

/-- onlinePartition: set the partition's bit in the order registry. -/
def QuantumAllocator.onlinePartition (qa : QuantumAllocator)
    (partitionIndex orderIndex : Nat) : QuantumAllocator :=
  qa.setOrderRegistry orderIndex ((qa.getOrderRegistry orderIndex).set partitionIndex).2

/-- offlinePartition: clear the partition's bit in the order registry for
orderIndex and reinstall this QuantumAllocator in the roster for that order;
returns whether the bit was previously set. -/
def QuantumAllocator.offlinePartition (qa : QuantumAllocator) (roster : Roster)
    (qaIndex partitionIndex orderIndex : Nat) : Bool × QuantumAllocator × Roster :=
  let (cleared, reg) := (qa.getOrderRegistry orderIndex).clear partitionIndex
  (cleared, qa.setOrderRegistry orderIndex reg,
   AllocatorRoster.setAllocator roster (AllocatorRef.quantumAllocator qaIndex)
     (qa.smallestSizeOrder + orderIndex))

/-- addToOrder: put the partition online for the order and make it the
primary allocator for that order in the roster. -/
def QuantumAllocator.addToOrder (qa : QuantumAllocator) (roster : Roster)
    (qaIndex orderIndex partitionIndex : Nat) : QuantumAllocator × Roster :=
  (qa.onlinePartition partitionIndex orderIndex,
   AllocatorRoster.setAllocator roster (AllocatorRef.partitionAllocator qaIndex partitionIndex)
     (qa.smallestSizeOrder + orderIndex))

/-- newOrderPartition: claim a slot, initialise it for the order, and put it
online; returns the partition slot index or none. -/
def QuantumAllocator.newOrderPartition (qa : QuantumAllocator) (roster : Roster)
    (qaIndex orderIndex : Nat) : Option Nat × QuantumAllocator × Roster :=
  let (partitionIndex, qa1) := qa.allocatePartition
  if partitionIndex = NOT_FOUND then (none, qa1, roster)
  else
    let i := partitionIndex.toNat
    let size := orderToSize (orderIndex + qa1.smallestSizeOrder)
    let qa2 := qa1.newPartition qaIndex i size
    let (qa3, roster1) := qa2.addToOrder roster qaIndex orderIndex i
    (some i, qa3, roster1)

/-- freeUpPartition scan, from high slots down (`n` remaining slots, the
current candidate being slot `n - 1`): find an empty partition, take it
offline, re-check emptiness, and reinitialise it for orderIndex; on a failed
offline attempt, put the slot online again (for orderIndex) and continue. -/
def QuantumAllocator.freeUpPartitionLoop (qaIndex orderIndex : Nat) :
    Nat → QuantumAllocator → Roster → Option Nat × QuantumAllocator × Roster
  | 0, qa, roster => (none, qa, roster)
  | n + 1, qa, roster =>
    let partitionIndex := n
    let p := qa.getPartition partitionIndex
    if !p.isEmpty then
      QuantumAllocator.freeUpPartitionLoop qaIndex orderIndex n qa roster
    else
      let (cleared, qa1, roster1) := qa.offlinePartition roster qaIndex partitionIndex orderIndex
      if !cleared || !(qa1.getPartition partitionIndex).isEmpty then
        QuantumAllocator.freeUpPartitionLoop qaIndex orderIndex n
          (qa1.onlinePartition partitionIndex orderIndex) roster1
      else
        let size := orderToSize (orderIndex + qa1.smallestSizeOrder)
        let qa2 := qa1.newPartition qaIndex partitionIndex size
        let (qa3, roster2) := qa2.addToOrder roster1 qaIndex orderIndex partitionIndex
        (some partitionIndex, qa3, roster2)

def QuantumAllocator.freeUpPartition (qa : QuantumAllocator) (roster : Roster)
    (qaIndex orderIndex : Nat) : Option Nat × QuantumAllocator × Roster :=
  QuantumAllocator.freeUpPartitionLoop qaIndex orderIndex qa.partitionCount qa roster

/-- getFreePartition: try a new partition slot, else free up an existing
one. -/
def QuantumAllocator.getFreePartition (qa : QuantumAllocator) (roster : Roster)
    (qaIndex orderIndex : Nat) : Option Nat × QuantumAllocator × Roster :=
  let (pIndex, qa1, roster1) := qa.newOrderPartition roster qaIndex orderIndex
  match pIndex with
  | some i => (some i, qa1, roster1)
  | none => qa1.freeUpPartition roster1 qaIndex orderIndex

/-- QuantumAllocator::allocate loop: the PartitionIterator (allocateNew and
continuous both true) walks the order registry; when it is exhausted (the
iterator's saved index is then the registry's maximumIndex) each further step
goes through getFreePartition.  Sequentially, at most partitionCount set bits
are visited and every getFreePartition-produced partition is empty, so fuel
partitionCount + 3 is never exhausted. -/
def QuantumAllocator.allocateLoop :
    Nat → QuantumAllocator → Roster → Nat → Nat → Nat → Nat →
    Option Nat × QuantumAllocator × Roster
  | 0, qa, roster, _, _, _, _ => (none, qa, roster)
  | fuel + 1, qa, roster, qaIndex, orderIndex, size, iterIndex =>
    let found := (qa.getOrderRegistry orderIndex).nextSetFrom iterIndex
    if found ≠ NOT_FOUND then
      let i := found.toNat
      let (address, p1) := (qa.getPartition i).allocate size
      let qa1 := qa.setPartition i p1
      match address with
      | some a => (some a, qa1, roster)
      | none => QuantumAllocator.allocateLoop fuel qa1 roster qaIndex orderIndex size (i + 1)
    else
      let exhausted := (qa.getOrderRegistry orderIndex).maximumIndex
      let (pIndex, qa1, roster1) := qa.getFreePartition roster qaIndex orderIndex
      match pIndex with
      | none => (none, qa1, roster1)
      | some i =>
        let (address, p1) := (qa1.getPartition i).allocate size
        let qa2 := qa1.setPartition i p1
        match address with
        | some a => (some a, qa2, roster1)
        | none =>
          QuantumAllocator.allocateLoop fuel qa2 roster1 qaIndex orderIndex size exhausted

/-- QuantumAllocator::allocate. -/
def QuantumAllocator.allocate (qa : QuantumAllocator) (roster : Roster)
    (qaIndex : Nat) (size : Nat) : Option Nat × QuantumAllocator × Roster :=
  QuantumAllocator.allocateLoop (qa.partitionCount + 3) qa roster qaIndex
    (qa.getOrderIndex size) size 0

/-- QuantumAllocator::allocateCount loop (same iterator as allocate). -/
def QuantumAllocator.allocateCountLoop :
    Nat → QuantumAllocator → Roster → Nat → Nat → Nat → Nat → Nat →
    Option Nat × QuantumAllocator × Roster
  | 0, qa, roster, _, _, _, _, _ => (none, qa, roster)
  | fuel + 1, qa, roster, qaIndex, orderIndex, size, count, iterIndex =>
    let found := (qa.getOrderRegistry orderIndex).nextSetFrom iterIndex
    if found ≠ NOT_FOUND then
      let i := found.toNat
      let (address, p1) := (qa.getPartition i).allocateCount size count
      let qa1 := qa.setPartition i p1
      match address with
      | some a => (some a, qa1, roster)
      | none =>
        QuantumAllocator.allocateCountLoop fuel qa1 roster qaIndex orderIndex size count (i + 1)
    else
      let exhausted := (qa.getOrderRegistry orderIndex).maximumIndex
      let (pIndex, qa1, roster1) := qa.getFreePartition roster qaIndex orderIndex
      match pIndex with
      | none => (none, qa1, roster1)
      | some i =>
        let (address, p1) := (qa1.getPartition i).allocateCount size count
        let qa2 := qa1.setPartition i p1
        match address with
        | some a => (some a, qa2, roster1)
        | none =>
          QuantumAllocator.allocateCountLoop fuel qa2 roster1 qaIndex orderIndex size count
            exhausted

/-- QuantumAllocator::allocateCount: count consecutive blocks of the size. -/
def QuantumAllocator.allocateCount (qa : QuantumAllocator) (roster : Roster)
    (qaIndex : Nat) (size : Nat) (count : Nat) : Option Nat × QuantumAllocator × Roster :=
  if orderDiv qa.partitionSize (sizeToOrder size) < count then (none, qa, roster)
  else
    QuantumAllocator.allocateCountLoop (qa.partitionCount + 3) qa roster qaIndex
      (qa.getOrderIndex size) size count 0

/-- QuantumAllocator::allocateBulk contiguous loop: the PartitionIterator here
has allocateNew true but continuous false (allocNew is spent by the first
registry exhaustion); each partition attempt passes the full count and the
buffer start, so the buffer holds the addresses of the last successful
partition. -/
def QuantumAllocator.allocateBulkContigLoop :
    Nat → QuantumAllocator → Roster → Nat → Nat → Nat → Nat → Bool → Nat → List Nat →
    Nat × List Nat × QuantumAllocator × Roster
  | 0, qa, roster, _, _, _, _, _, allocated, acc => (allocated, acc, qa, roster)
  | fuel + 1, qa, roster, qaIndex, orderIndex, count, iterIndex, allocNew, allocated, acc =>
    if allocated < count then
      let found := (qa.getOrderRegistry orderIndex).nextSetFrom iterIndex
      if found ≠ NOT_FOUND then
        let i := found.toNat
        let (n, addrs, p1) := (qa.getPartition i).allocateBulkContiguous count
        let qa1 := qa.setPartition i p1
        QuantumAllocator.allocateBulkContigLoop fuel qa1 roster qaIndex orderIndex count
          (i + 1) allocNew (allocated + n) (if n ≠ 0 then addrs else acc)
      else if allocNew then
        let exhausted := (qa.getOrderRegistry orderIndex).maximumIndex
        let (pIndex, qa1, roster1) := qa.getFreePartition roster qaIndex orderIndex
        match pIndex with
        | none => (allocated, acc, qa1, roster1)
        | some i =>
          let (n, addrs, p1) := (qa1.getPartition i).allocateBulkContiguous count
          let qa2 := qa1.setPartition i p1
          QuantumAllocator.allocateBulkContigLoop fuel qa2 roster1 qaIndex orderIndex count
            exhausted false (allocated + n) (if n ≠ 0 then addrs else acc)
      else (allocated, acc, qa, roster)
    else (allocated, acc, qa, roster)

/-- QuantumAllocator::allocateBulk non-contiguous loop: each partition fills
the remainder of the buffer through the bulk-claim iterator. -/
def QuantumAllocator.allocateBulkPieceLoop :
    Nat → QuantumAllocator → Roster → Nat → Nat → Nat → Nat → Bool → List Nat →
    Nat × List Nat × QuantumAllocator × Roster
  | 0, qa, roster, _, _, _, _, _, acc => (acc.length, acc, qa, roster)
  | fuel + 1, qa, roster, qaIndex, orderIndex, count, iterIndex, allocNew, acc =>
    if acc.length < count then
      let found := (qa.getOrderRegistry orderIndex).nextSetFrom iterIndex
      if found ≠ NOT_FOUND then
        let i := found.toNat
        let (_, addrs, p1) := (qa.getPartition i).allocateBulk (count - acc.length)
        let qa1 := qa.setPartition i p1
        QuantumAllocator.allocateBulkPieceLoop fuel qa1 roster qaIndex orderIndex count
          (i + 1) allocNew (acc ++ addrs)
      else if allocNew then
        let exhausted := (qa.getOrderRegistry orderIndex).maximumIndex
        let (pIndex, qa1, roster1) := qa.getFreePartition roster qaIndex orderIndex
        match pIndex with
        | none => (acc.length, acc, qa1, roster1)
        | some i =>
          let (_, addrs, p1) := (qa1.getPartition i).allocateBulk (count - acc.length)
          let qa2 := qa1.setPartition i p1
          QuantumAllocator.allocateBulkPieceLoop fuel qa2 roster1 qaIndex orderIndex count
            exhausted false (acc ++ addrs)
      else (acc.length, acc, qa, roster)
    else (acc.length, acc, qa, roster)

/-- QuantumAllocator::allocateBulk: contiguous requests are served whole from
one partition through allocateBulkContiguous (and only when count fits a
partition); non-contiguous requests accumulate across partitions. -/
def QuantumAllocator.allocateBulk (qa : QuantumAllocator) (roster : Roster)
    (qaIndex : Nat) (size : Nat) (count : Nat) (contiguous : Bool) :
    Nat × List Nat × QuantumAllocator × Roster :=
  let orderIndex := qa.getOrderIndex size
  if contiguous then
    if count ≤ orderDiv qa.partitionSize (sizeToOrder size) then
      QuantumAllocator.allocateBulkContigLoop (qa.partitionCount + 3) qa roster qaIndex
        orderIndex count 0 true 0 []
    else (0, [], qa, roster)
  else
    QuantumAllocator.allocateBulkPieceLoop (qa.partitionCount + 3) qa roster qaIndex
      orderIndex count 0 true []

/-- partitionFromAddress, then Partition::deallocate. -/
def QuantumAllocator.deallocate (qa : QuantumAllocator) (address : Nat) : QuantumAllocator :=
  let partitionIndex := qa.getPartitionIndex address
  qa.setPartition partitionIndex ((qa.getPartition partitionIndex).deallocate address)

def QuantumAllocator.allocationSize (qa : QuantumAllocator) (address : Nat) : Nat :=
  (qa.getPartition (qa.getPartitionIndex address)).allocationSize address

def QuantumAllocator.allocationBase (qa : QuantumAllocator) (address : Nat) : Nat :=
  (qa.getPartition (qa.getPartitionIndex address)).allocationBase address

def QuantumAllocator.allocationSideData (qa : QuantumAllocator) (address : Nat) : Nat :=
  (qa.getPartition (qa.getPartitionIndex address)).allocationSideData address

/-- The OS (System class collaborators, out of scope per the spec): virtual
memory is handed out from a bump pointer; `reservePlan` scripts which of the
next reserveAligned calls the OS refuses (an empty plan means success), and
`commits` records every System::commit call with its base address and size.
Release bookkeeping and memory contents are not modelled. -/
structure Sys where
  nextFree : Nat
  reservePlan : List Bool
  commits : List (Nat × Nat)
deriving DecidableEq, Repr

/-- System::reserveAligned: a fresh region aligned to `alignment`, or the
null address when the OS refuses. -/
def Sys.reserveAligned (sys : Sys) (size alignment : Nat) : Nat × Sys :=
  let (ok, plan) := oracleNext sys.reservePlan
  if ok then
    let base := roundUp sys.nextFree alignment
    (base, { sys with nextFree := base + size, reservePlan := plan })
  else (0, { sys with reservePlan := plan })

/-- System::release: reservation bookkeeping is not modelled. -/
def Sys.release (sys : Sys) (_address _size : Nat) : Sys := sys

/-- System::commit: recorded in the commit trace. -/
def Sys.commit (sys : Sys) (address size : Nat) : Sys :=
  { sys with commits := sys.commits ++ [(address, size)] }

/-- The Slab class: one outstanding large allocation, a Space. -/
structure Slab where
  base : Nat
  size : Nat
deriving DecidableEq, Repr

/-- Zero-filled (uninitialised) slab slot. -/
def zeroSlab : Slab := { base := 0, size := 0 }

def Slab.inSpace (s : Slab) (address : Nat) : Bool :=
  s.base ≤ address && address < s.base + s.size

/-- Slab alignment: the size of the largest quantum (64 MiB). -/
def SLAB_ALIGNMENT : Nat := orderToSize LARGEST_SIZE_ORDER

/-- The SlabAllocator class: a fixed table of slab records plus a registry of
occupied slots. -/
structure SlabAllocator where
  secure : Bool
  maxCount : Nat
  slabs : List Slab
  sideDataSize : Nat
  sideData : Nat
  registry : Registry
deriving DecidableEq, Repr

def mkSlabAllocator (secure : Bool) (maxCount sideDataSize : Nat) : SlabAllocator :=
  { secure := secure
    maxCount := maxCount
    slabs := List.replicate maxCount zeroSlab
    sideDataSize := sideDataSize
    sideData := 0
    registry := mkRegistry maxCount }

/-- SlabAllocator::find linear scan: slot containing the address with its
registry bit set, or NOT_FOUND. -/
def SlabAllocator.findLoop (sa : SlabAllocator) (address : Nat) : Nat → Nat → Int
  | _, 0 => NOT_FOUND
  | i, remaining + 1 =>
    if (sa.slabs.getD i zeroSlab).inSpace address && sa.registry.isSet i then (i : Int)
    else SlabAllocator.findLoop sa address (i + 1) remaining

def SlabAllocator.find (sa : SlabAllocator) (address : Nat) : Int :=
  SlabAllocator.findLoop sa address 0 sa.maxCount

/-- SlabAllocator::record: register an allocation in a free slot. -/
def SlabAllocator.record (sa : SlabAllocator) (base size : Nat) : Int × SlabAllocator :=
  let (index, reg) := sa.registry.findFree
  let sa1 := { sa with registry := reg }
  if index = NOT_FOUND then (NOT_FOUND, sa1)
  else (index, { sa1 with slabs := sa1.slabs.set index.toNat { base := base, size := size } })

/-- SlabAllocator::erase: free the slot's registry bit (the OS reservation is
retained for recycling). -/
def SlabAllocator.erase (sa : SlabAllocator) (index : Nat) : SlabAllocator :=
  { sa with registry := sa.registry.free index }

/-- SlabAllocator::reserve: recycle a previously released slab when large
enough (trimming any excess), otherwise release the old reservation and
reserve a fresh aligned region. -/
def SlabAllocator.reserve (sa : SlabAllocator) (sys : Sys) (size : Nat) :
    Option Nat × SlabAllocator × Sys :=
  let (index, reg) := sa.registry.findFree
  let sa1 := { sa with registry := reg }
  if index = NOT_FOUND then (none, sa1, sys)
  else
    let i := index.toNat
    let slab := sa1.slabs.getD i zeroSlab
    let base := slab.base
    let slabSize := slab.size
    let sys1 := if size < slabSize then sys.release (base + size) (slabSize - size) else sys
    if size ≤ slabSize then
      let sys2 := if sa1.secure then sys1.commit base size else sys1
      (some base, { sa1 with slabs := sa1.slabs.set i { base := base, size := size } }, sys2)
    else
      let sys2 := if slabSize ≠ 0 then sys1.release base slabSize else sys1
      let (newBase, sys3) := sys2.reserveAligned size SLAB_ALIGNMENT
      if newBase = 0 then (none, { sa1 with registry := sa1.registry.free i }, sys3)
      else
        let sys4 := sys3.commit newBase size
        (some newBase,
         { sa1 with slabs := sa1.slabs.set i { base := newBase, size := size } }, sys4)

/-- SlabAllocator::allocate: reserve the size rounded up to one megabyte. -/
def SlabAllocator.allocate (sa : SlabAllocator) (sys : Sys) (size : Nat) :
    Option Nat × SlabAllocator × Sys :=
  sa.reserve sys (roundUp size MEGABYTE)

/-- SlabAllocator::allocateCount: one region of size*count rounded up to the
slab alignment. -/
def SlabAllocator.allocateCount (sa : SlabAllocator) (sys : Sys) (size count : Nat) :
    Option Nat × SlabAllocator × Sys :=
  sa.reserve sys (roundUp ((size * count) % TWO64) SLAB_ALIGNMENT)

/-- SlabAllocator::deallocate: clear the slot's registry bit but keep the OS
reservation for recycling; unknown addresses are a no-op. -/
def SlabAllocator.deallocate (sa : SlabAllocator) (address : Nat) : SlabAllocator :=
  let index := sa.find address
  if index = NOT_FOUND then sa
  else sa.erase index.toNat

/-- SlabAllocator::allocateBulk record loop: record `remaining` more slabs of
roundedSize carved from base, the next being number `i`. -/
def SlabAllocator.allocateBulkLoop (base roundedSize count : Nat) :
    Nat → Nat → SlabAllocator → Sys → List Nat → Nat × List Nat × SlabAllocator × Sys
  | _, 0, sa, sys, acc => (count, acc, sa, sys)
  | i, remaining + 1, sa, sys, acc =>
    let address := base + i * roundedSize
    let (index, sa1) := sa.record address roundedSize
    if index = NOT_FOUND then
      (i, acc, sa1, sys.release address ((count - i) * roundedSize))
    else
      SlabAllocator.allocateBulkLoop base roundedSize count (i + 1) remaining sa1 sys
        (acc ++ [address])

/-- SlabAllocator::allocateBulk: reserve one region of count*roundedSize and
record count consecutive slabs into it.  NOTE: the C++ calls System::commit
on the reserved base before checking it for null; the model reproduces this
(the contiguous argument is ignored by the C++ as well). -/
def SlabAllocator.allocateBulk (sa : SlabAllocator) (sys : Sys) (size count : Nat)
    (_contiguous : Bool) : Nat × List Nat × SlabAllocator × Sys :=
  let roundedSize := roundUp size SLAB_ALIGNMENT
  let total := (roundedSize * count) % TWO64
  let (base, sys1) := sys.reserveAligned total SLAB_ALIGNMENT
  let sys2 := sys1.commit base total
  if base = 0 then (0, [], sa, sys2)
  else SlabAllocator.allocateBulkLoop base roundedSize count 0 count sa sys2 []

def SlabAllocator.allocationSize (sa : SlabAllocator) (address : Nat) : Nat :=
  let index := sa.find address
  if index = NOT_FOUND then 0
  else (sa.slabs.getD index.toNat zeroSlab).size

def SlabAllocator.allocationBase (sa : SlabAllocator) (address : Nat) : Nat :=
  let index := sa.find address
  if index = NOT_FOUND then 0
  else (sa.slabs.getD index.toNat zeroSlab).base

def SlabAllocator.allocationSideData (sa : SlabAllocator) (address : Nat) : Nat :=
  let index := sa.find address
  if index = NOT_FOUND then 0
  else sa.sideData + index.toNat * sa.sideDataSize

/-- Add n to a stats slot. -/
def statsAdd (counts : List Nat) (slot n : Nat) : List Nat :=
  counts.set slot (counts.getD slot 0 + n)

/-- Partition::stats, counts array only (the sizes array accumulates
sizeof-based layout constants that a shallow embedding cannot express). -/
def Partition.statsCounts (p : Partition) (counts : List Nat) : List Nat :=
  statsAdd counts p.quantumSizeOrder p.registry.count

/-- QuantumAllocator::stats, counts array only: every in-use partition slot
contributes its live-quantum census at its order. -/
def QuantumAllocator.statsCounts (qa : QuantumAllocator) (counts : List Nat) : List Nat :=
  (List.range qa.partitionCount).foldl
    (fun acc i =>
      if qa.partitionRegistry.isSet i then (qa.getPartition i).statsCounts acc else acc)
    counts

/-- SlabAllocator::stats, counts array only: every occupied slot contributes
one block at the order of its slab size. -/
def SlabAllocator.statsCounts (sa : SlabAllocator) (counts : List Nat) : List Nat :=
  (List.range sa.maxCount).foldl
    (fun acc i =>
      if sa.registry.isSet i then
        statsAdd acc (sizeToOrder (sa.slabs.getD i zeroSlab).size) 1
      else acc)
    counts

/-- Sum of n stats slots starting at slot lo (the `for (i = lo; ...)`
accumulation loops of Director::stats), associated as the C++ loop is. -/
def slotSum (counts : List Nat) (lo : Nat) : Nat → Nat
  | 0 => 0
  | n + 1 => slotSum counts lo n + counts.getD (lo + n) 0

/-- The Director class.  The administrative arena extent (Space size) is a
layout constant that no embedded operation consults, so it is not carried. -/
structure Director where
  base : Nat
  sharing : Bool
  secure : Bool
  roster : Roster
  quantumAllocators : List QuantumAllocator
  slabAllocator : SlabAllocator
  reference : Nat
deriving DecidableEq, Repr

def emptyQuantumAllocator : QuantumAllocator := mkQuantumAllocator 0 0 0 0 0 0 0

def Director.getQuantumAllocator (d : Director) (qaIndex : Nat) : QuantumAllocator :=
  d.quantumAllocators.getD qaIndex emptyQuantumAllocator

def Director.setQuantumAllocator (d : Director) (qaIndex : Nat) (qa : QuantumAllocator) :
    Director :=
  { d with quantumAllocators := d.quantumAllocators.set qaIndex qa }

/-- The roster fill performed by the Director constructor.  The tier order
ranges written by its loop are the constructed QuantumAllocators' orders,
which are the fixed values 3..10, 11..18 and 19..26 for every
configuration. -/
def directorRoster : Roster :=
  let roster0 := AllocatorRoster.setAllocators
    (List.replicate MAX_ORDER AllocatorRef.nullAllocator)
    AllocatorRef.nullAllocator 0 SMALLEST_SIZE_ORDER
  let roster1 := AllocatorRoster.setAllocators roster0
    (AllocatorRef.quantumAllocator 0) 1 (SMALLEST_SIZE_ORDER + 1)
  let roster2 := AllocatorRoster.setAllocators roster1
    (AllocatorRef.quantumAllocator 0) SMALLEST_SIZE_ORDER
    (SMALLEST_SIZE_ORDER + MAX_QUANTUM_ALLOCATOR_ORDERS)
  let roster3 := AllocatorRoster.setAllocators roster2
    (AllocatorRef.quantumAllocator 1) (SMALLEST_SIZE_ORDER + MAX_QUANTUM_ALLOCATOR_ORDERS)
    (SMALLEST_SIZE_ORDER + 2 * MAX_QUANTUM_ALLOCATOR_ORDERS)
  let roster4 := AllocatorRoster.setAllocators roster3
    (AllocatorRef.quantumAllocator 2) (SMALLEST_SIZE_ORDER + 2 * MAX_QUANTUM_ALLOCATOR_ORDERS)
    (LARGEST_SIZE_ORDER + 1)
  let roster5 := AllocatorRoster.setAllocators roster4
    AllocatorRef.slabAllocator (LARGEST_SIZE_ORDER + 1) MAX_ALLOCATION_ORDER
  AllocatorRoster.setAllocators roster5
    AllocatorRef.nullAllocator MAX_ALLOCATION_ORDER MAX_ORDER

/-- createDirector (creating) followed by the Director constructor, for a
fresh non-shared instance reserved at `base`: the three quantum-allocator
regions are carved from the arena largest tier first, the tiers are built
smallest first, and the roster is then populated exactly as the constructor
does (directorRoster).  Side-data arena addresses are represented as 0 (no
settled claim consults side data of a managed address). -/
def mkDirector (base : Nat) (secure : Bool)
    (smallPartitionCount mediumPartitionCount largePartitionCount : Nat)
    (maxSlabCount sideDataSize : Nat) : Director :=
  let smallest2 := LARGEST_SIZE_ORDER - MAX_QUANTUM_ALLOCATOR_ORDERS + 1
  let smallest1 := smallest2 - MAX_QUANTUM_ALLOCATOR_ORDERS
  let smallest0 := smallest1 - MAX_QUANTUM_ALLOCATOR_ORDERS
  let partitionSizeOrder2 := sizeToOrder (orderMul MAX_PARTITION_QUANTUM smallest2)
  let partitionSizeOrder1 := sizeToOrder (orderMul MAX_PARTITION_QUANTUM smallest1)
  let partitionSizeOrder0 := sizeToOrder (orderMul MAX_PARTITION_QUANTUM smallest0)
  let size2 := orderMul largePartitionCount partitionSizeOrder2
  let size1 := orderMul mediumPartitionCount partitionSizeOrder1
  let base2 := base
  let base1 := base + size2
  let base0 := base + size2 + size1
  let qa0 := mkQuantumAllocator smallest0 (smallest0 + MAX_QUANTUM_ALLOCATOR_ORDERS - 1)
    partitionSizeOrder0 smallPartitionCount base0 sideDataSize 0
  let qa1 := mkQuantumAllocator smallest1 (smallest1 + MAX_QUANTUM_ALLOCATOR_ORDERS - 1)
    partitionSizeOrder1 mediumPartitionCount base1 sideDataSize 0
  let qa2 := mkQuantumAllocator smallest2 (smallest2 + MAX_QUANTUM_ALLOCATOR_ORDERS - 1)
    partitionSizeOrder2 largePartitionCount base2 sideDataSize 0
  { base := base
    sharing := false
    secure := secure
    roster := directorRoster
    quantumAllocators := [qa0, qa1, qa2]
    slabAllocator := mkSlabAllocator secure maxSlabCount sideDataSize
    reference := 0 }

/-- findAllocatorBySize: roster lookup at the size's order. -/
def Director.findAllocatorBySize (d : Director) (size : Nat) : AllocatorRef :=
  AllocatorRoster.getAllocator d.roster (sizeToOrder size)

/-- Dispatch of Director::allocate to a QuantumAllocator. -/
def Director.allocateViaQuantum (d : Director) (sys : Sys) (qaIndex : Nat) (size : Nat) :
    Option Nat × Director × Sys :=
  let (address, qa1, roster1) := (d.getQuantumAllocator qaIndex).allocate d.roster qaIndex size
  (address, { d.setQuantumAllocator qaIndex qa1 with roster := roster1 }, sys)

/-- Director::allocate: round the size up to a power of two, look the order
up in the roster, try an installed partition first (falling back to its
managing QuantumAllocator), else dispatch to the QuantumAllocator or
SlabAllocator; the NullAllocator yields null. -/
def Director.allocate (d : Director) (sys : Sys) (size : Nat) : Option Nat × Director × Sys :=
  let alignedSize := roundUpPowerOf2 size
  match d.findAllocatorBySize alignedSize with
  | AllocatorRef.partitionAllocator qaIndex pIndex =>
    let qa := d.getQuantumAllocator qaIndex
    let (address, p1) := (qa.getPartition pIndex).allocate alignedSize
    let d1 := d.setQuantumAllocator qaIndex (qa.setPartition pIndex p1)
    match address with
    | some a => (some a, d1, sys)
    | none => d1.allocateViaQuantum sys p1.quantumAllocator alignedSize
  | AllocatorRef.quantumAllocator qaIndex => d.allocateViaQuantum sys qaIndex alignedSize
  | AllocatorRef.slabAllocator =>
    let (address, sa1, sys1) := d.slabAllocator.allocate sys alignedSize
    (address, { d with slabAllocator := sa1 }, sys1)
  | AllocatorRef.nullAllocator => (none, d, sys)

/-- First QuantumAllocator whose space contains the address (the containment
scan of Director::deallocate and the query operations). -/
def Director.findQALoop (d : Director) (address : Nat) : Nat → Nat → Option Nat
  | _, 0 => none
  | i, remaining + 1 =>
    if (d.getQuantumAllocator i).inSpace address then some i
    else Director.findQALoop d address (i + 1) remaining

def Director.findQAContaining (d : Director) (address : Nat) : Option Nat :=
  Director.findQALoop d address 0 d.quantumAllocators.length

/-- Director::deallocate: the containing tier's deallocate (with a secure
clear of the block contents, which are not modelled), else the
SlabAllocator's. -/
def Director.deallocate (d : Director) (address : Nat) : Director :=
  match d.findQAContaining address with
  | some i => d.setQuantumAllocator i ((d.getQuantumAllocator i).deallocate address)
  | none => { d with slabAllocator := d.slabAllocator.deallocate address }

/-- Director::allocationSize: tier lookup, else slab lookup; 0 if unknown. -/
def Director.allocationSize (d : Director) (address : Nat) : Nat :=
  match d.findQAContaining address with
  | some i => (d.getQuantumAllocator i).allocationSize address
  | none => d.slabAllocator.allocationSize address

/-- Director::allocationBase: null (0) if unknown. -/
def Director.allocationBase (d : Director) (address : Nat) : Nat :=
  match d.findQAContaining address with
  | some i => (d.getQuantumAllocator i).allocationBase address
  | none => d.slabAllocator.allocationBase address

/-- Director::allocationSideData: null (0) if unknown. -/
def Director.allocationSideData (d : Director) (address : Nat) : Nat :=
  match d.findQAContaining address with
  | some i => (d.getQuantumAllocator i).allocationSideData address
  | none => d.slabAllocator.allocationSideData address

/-- Director::reallocate: null old address means plain allocate; a larger
rounded size or a shrink of the order reallocates (copy of the contents is
not modelled), otherwise the old block is returned unchanged. -/
def Director.reallocate (d : Director) (sys : Sys) (oldAddress : Nat) (newSize : Nat) :
    Option Nat × Director × Sys :=
  if oldAddress = 0 then d.allocate sys newSize
  else
    let oldSize := d.allocationSize oldAddress
    if oldSize < roundUpPowerOf2 newSize || sizeToOrder newSize < sizeToOrder oldSize then
      let (newAddress, d1, sys1) := d.allocate sys newSize
      match newAddress with
      | some a =>
        if oldSize ≠ 0 then (some a, d1.deallocate oldAddress, sys1)
        else (some a, d1, sys1)
      | none => (none, d1, sys1)
    else (some oldAddress, d, sys)

/-- Dispatch of Director::allocateCount to a QuantumAllocator. -/
def Director.allocateCountViaQuantum (d : Director) (sys : Sys) (qaIndex : Nat)
    (size count : Nat) : Option Nat × Director × Sys :=
  let (address, qa1, roster1) :=
    (d.getQuantumAllocator qaIndex).allocateCount d.roster qaIndex size count
  (address, { d.setQuantumAllocator qaIndex qa1 with roster := roster1 }, sys)

/-- Director::allocateCount: like allocate, for count consecutive blocks. -/
def Director.allocateCount (d : Director) (sys : Sys) (size count : Nat) :
    Option Nat × Director × Sys :=
  let alignedSize := roundUpPowerOf2 size
  match d.findAllocatorBySize alignedSize with
  | AllocatorRef.partitionAllocator qaIndex pIndex =>
    let qa := d.getQuantumAllocator qaIndex
    let (address, p1) := (qa.getPartition pIndex).allocateCount alignedSize count
    let d1 := d.setQuantumAllocator qaIndex (qa.setPartition pIndex p1)
    match address with
    | some a => (some a, d1, sys)
    | none => d1.allocateCountViaQuantum sys p1.quantumAllocator alignedSize count
  | AllocatorRef.quantumAllocator qaIndex =>
    d.allocateCountViaQuantum sys qaIndex alignedSize count
  | AllocatorRef.slabAllocator =>
    let (address, sa1, sys1) := d.slabAllocator.allocateCount sys alignedSize count
    (address, { d with slabAllocator := sa1 }, sys1)
  | AllocatorRef.nullAllocator => (none, d, sys)

/-- Tier route of Director::allocateBulk: the first QuantumAllocator whose
largest order covers the size's order. -/
def Director.allocateBulkRouteLoop (d : Director) (sys : Sys)
    (size count : Nat) (contiguous : Bool) (order : Nat) :
    Nat → Nat → Nat × List Nat × Director × Sys
  | _, 0 =>
    let (n, addrs, sa1, sys1) := d.slabAllocator.allocateBulk sys size count contiguous
    (n, addrs, { d with slabAllocator := sa1 }, sys1)
  | i, remaining + 1 =>
    let qa := d.getQuantumAllocator i
    if order ≤ qa.largestSizeOrder then
      let (n, addrs, qa1, roster1) := qa.allocateBulk d.roster i size count contiguous
      (n, addrs, { d.setQuantumAllocator i qa1 with roster := roster1 }, sys)
    else Director.allocateBulkRouteLoop d sys size count contiguous order (i + 1) remaining

/-- Director::allocateBulk: routed by the unaligned size's order. -/
def Director.allocateBulk (d : Director) (sys : Sys) (size count : Nat) (contiguous : Bool) :
    Nat × List Nat × Director × Sys :=
  Director.allocateBulkRouteLoop d sys size count contiguous (sizeToOrder size) 0
    d.quantumAllocators.length

/-- Director::stats, counts array only: administrative slot 1 gets the
Director itself, every tier and the slab allocator contribute, and slot 0 is
then overwritten with the sum of slots 1 through 63. -/
def Director.statsCounts (d : Director) : List Nat :=
  let counts0 := List.replicate 64 0
  let counts1 := statsAdd counts0 1 1
  let counts2 := d.quantumAllocators.foldl (fun acc qa => qa.statsCounts acc) counts1
  let counts3 := d.slabAllocator.statsCounts counts2
  counts3.set 0 (slotSum counts3 1 63)

/-- An address is managed by the instance when it lies in a tier's space or
inside a live (registered) slab. -/
def Director.isManaged (d : Director) (address : Nat) : Bool :=
  d.quantumAllocators.any (fun qa => qa.inSpace address) ||
  (List.range d.slabAllocator.maxCount).any
    (fun i =>
      (d.slabAllocator.slabs.getD i zeroSlab).inSpace address &&
      d.slabAllocator.registry.isSet i)

/-!  Concrete instances and runs used by the claims. -/

/-- A fresh OS with memory handed out from 2^40 and no scripted refusals. -/
def sysInit : Sys := { nextFree := 2 ^ 40, reservePlan := [], commits := [] }

/-- The spec's basic configuration (scenario 1 of section 8): a fresh
non-shared instance at base 2^26 with 4 small, 4 medium and 2 large
partitions, 16 slab slots and no side data. -/
def basicDirector : Director := mkDirector (2 ^ 26) false 4 4 2 16 0

/-- Fresh instance with two small-tier partitions and nothing else, used to
drive the tier through partition-registry exhaustion. -/
def twoSlotDirector : Director := mkDirector (2 ^ 26) false 2 0 0 0 0

/-- Step 1: allocate(8) brings partition slot 0 online for order 3 and
returns the tier base. -/
def promoStep1 : Option Nat × Director × Sys := twoSlotDirector.allocate sysInit 8

/-- Step 2: allocate(16) brings partition slot 1 online for order 4. -/
def promoStep2 : Option Nat × Director × Sys := promoStep1.2.1.allocate promoStep1.2.2 16

/-- Step 3: deallocate the order-3 block, leaving partition 0 empty but
registered for order 3 and its slot still claimed. -/
def promoStep3 : Director := promoStep2.2.1.deallocate (2 ^ 26)

/-- Step 4: allocate(32) finds no free partition slot; freeUpPartition scans,
fails to take the empty order-3 partition offline for order 5 (its bit lives
in the order-3 registry) and, on that failure, registers it in the order-5
registry without reinitialising it. -/
def promoStep4 : Option Nat × Director × Sys := promoStep3.allocate promoStep2.2.2 32

/-- Step 5: allocate(32) now reaches the still-order-3 partition through the
corrupted order-5 registry and returns one of its 8-byte quanta. -/
def promoStep5 : Option Nat × Director × Sys := promoStep4.2.1.allocate promoStep4.2.2 32

/-- Bulk-contiguous run of the spec's scenario 3 on the basic instance. -/
def bulkRun : Nat × List Nat × Director × Sys :=
  basicDirector.allocateBulk sysInit 4096 8 true

/-- allocate(0) on the basic instance. -/
def zeroSizeRun : Option Nat × Director × Sys := basicDirector.allocate sysInit 0

/-- Slab-only instance: no quantum partitions, two slab slots. -/
def slabOnlyDirector : Director := mkDirector (2 ^ 26) false 0 0 0 2 0

/-- allocate_count(2^27, 3) lands in the slab allocator and records one live
slab of 3 * 2^27 bytes (not a power of two) at 2^40. -/
def slabCountRun : Option Nat × Director × Sys :=
  slabOnlyDirector.allocateCount sysInit (2 ^ 27) 3

/-- allocate(2^27) on the slab-only instance: one live slab of exactly 2^27
bytes at 2^40. -/
def slabPow2Run : Option Nat × Director × Sys := slabOnlyDirector.allocate sysInit (2 ^ 27)

/-- A fresh slab allocator of four slots, and an OS that refuses the next
reservation. -/
def refusedSlabAllocator : SlabAllocator := mkSlabAllocator false 4 0

def refusedSys : Sys := { nextFree := 2 ^ 40, reservePlan := [false], commits := [] }

/-- allocateBulk(2^27, 2) under the refused reservation. -/
def refusedBulkRun : Nat × List Nat × SlabAllocator × Sys :=
  refusedSlabAllocator.allocateBulk refusedSys (2 ^ 27) 2 true

/-- One findFree step (the allocation of one bit, or a failed scan). -/
def findFreeStep (r : Registry) : Registry := (r.findFree).2

/-- A 128-bit registry driven through 128 successful findFree calls (all
bits set) and one failing call (the lowest-word hint ends at word 2, the
registry's maximumWordIndex). -/
def fullRegistry128 : Registry := findFreeStep^[129] (mkRegistry 128)

/-!  Claim theorems. -/

/-- C1: the code violates the claim on a reachable state.  On a fresh
two-partition small tier, after allocate(8), allocate(16) and
deallocate of the first block, allocate(32) exhausts the partition registry
and freeUpPartition's failed offline attempt registers the still-order-3
partition 0 in the order-5 registry; the next allocate(32) then returns a
non-null address whose allocationSize is 8 < 32, although 1 <= 32 <=
MAX_ALLOCATION_SIZE and the claim demands allocationSize >= 32. -/
theorem allocate_undersized_after_failed_promotion :
    promoStep1.1 = some (2 ^ 26) ∧
    promoStep2.1 = some (2 ^ 26 + 2 ^ 17) ∧
    promoStep4.1 = none ∧
    promoStep5.1 = some (2 ^ 26) ∧
    Director.allocationSize promoStep5.2.1 (2 ^ 26) = 8 ∧
    8 < 32 ∧ 32 ≤ MAX_ALLOCATION_SIZE :=
  ⟨rfl, rfl, rfl, rfl, rfl, by decide, by decide⟩

/-- C2: on the freshly created basic instance,
allocate_bulk(size=4096, count=8, contiguous=true) returns 8 and the
returned addresses satisfy out[i+1] - out[i] = 4096 for i in [0..6]. -/
theorem allocateBulk_contiguous_eight_blocks :
    bulkRun.1 = 8 ∧
    ∀ i < 7, bulkRun.2.1.getD (i + 1) 0 - bulkRun.2.1.getD i 0 = 4096 := by
  have h : bulkRun.2.1 = (List.range 8).map (fun i => 2 ^ 34 + 2 ^ 26 + 4096 * i) := rfl
  exact ⟨rfl, by rw [h]; decide⟩

/-- C3 counterexample: immediately after construction the roster entry for
order 1 (an order in [0, SMALLEST_SIZE_ORDER)) is the small-tier
QuantumAllocator, not the NullAllocator. -/
theorem roster_order_one_not_null :
    ¬ (∀ k < SMALLEST_SIZE_ORDER,
        AllocatorRoster.getAllocator basicDirector.roster k = AllocatorRef.nullAllocator) := by
  intro h
  have h1 : AllocatorRoster.getAllocator basicDirector.roster 1 =
      AllocatorRef.quantumAllocator 0 := rfl
  have h2 := h 1 (by decide)
  rw [h1] at h2
  exact absurd h2 (by decide)

/-- C3 amended: immediately after Director construction only order 0 holds
the NullAllocator; orders 1 and 2 hold the first (small-tier)
QuantumAllocator, because the constructor stores it over orders [1,
SMALLEST_SIZE_ORDER] right after the initial null fill. -/
theorem roster_low_orders_after_construction (base : Nat) (secure : Bool)
    (s m l slabs sd : Nat) :
    AllocatorRoster.getAllocator (mkDirector base secure s m l slabs sd).roster 0 =
      AllocatorRef.nullAllocator ∧
    AllocatorRoster.getAllocator (mkDirector base secure s m l slabs sd).roster 1 =
      AllocatorRef.quantumAllocator 0 ∧
    AllocatorRoster.getAllocator (mkDirector base secure s m l slabs sd).roster 2 =
      AllocatorRef.quantumAllocator 0 :=
  ⟨rfl, rfl, rfl⟩

/-- C4 counterexample: on the freshly created basic instance (a reachable
state), stats leaves every per-order slot in [3,52] at zero yet sets slot 0
to 1 (the administrative count in slot 1), so counts[0] differs from the sum
of counts[3..52]. -/
theorem stats_slot0_exceeds_live_sum_on_fresh :
    (Director.statsCounts basicDirector).getD 0 0 ≠
      slotSum (Director.statsCounts basicDirector) 3 50 := by
  have h0 : (Director.statsCounts basicDirector).getD 0 0 = 1 := rfl
  have h1 : slotSum (Director.statsCounts basicDirector) 3 50 = 0 := rfl
  rw [h0, h1]
  decide

/-- C5 counterexample: allocate_count(2^27, 3) leaves a live slab allocation
a = 2^40 with size(a) = 3 * 2^27; reallocate(a, size(a)) does not return a
(it allocates a fresh 2^29-byte slab and releases a), because
roundUpPowerOf2(size(a)) exceeds the non-power-of-two size(a). -/
theorem reallocate_moves_nonpow2_slab :
    Director.allocationSize slabCountRun.2.1 (2 ^ 40) = 3 * 2 ^ 27 ∧
    (Director.reallocate slabCountRun.2.1 slabCountRun.2.2 (2 ^ 40)
        (Director.allocationSize slabCountRun.2.1 (2 ^ 40))).1 ≠ some (2 ^ 40) := by
  have h : (Director.reallocate slabCountRun.2.1 slabCountRun.2.2 (2 ^ 40)
      (Director.allocationSize slabCountRun.2.1 (2 ^ 40))).1 = some (2 ^ 40 + 3 * 2 ^ 27) := rfl
  exact ⟨rfl, by rw [h]; decide⟩

/-- C8: the code violates the claim.  The registry driven to fullness (a
reachable state: 128 findFree successes and one failure on a 128-bit
registry leave lowestIndex = maximumWordIndex = 2) makes findFreeRange(2)
read the bitmap word at index 2 = maximumWordIndex, beyond the registry's
last word, because the scan loop bounds its word index by _maximumIndex (a
bit count) instead of _maximumWordIndex. -/
theorem findFreeRange_reads_word_at_maximumWordIndex :
    Registry.findFreeRangeReads fullRegistry128 2 = [2] ∧
    fullRegistry128.maximumWordIndex = 2 ∧
    fullRegistry128.maximumIndex = 128 ∧
    (Registry.findFreeRange fullRegistry128 2).1 = NOT_FOUND :=
  ⟨rfl, rfl, rfl, rfl⟩

/-- C9: the code violates the claim.  When System::reserveAligned refuses
(returns null), SlabAllocator::allocateBulk does return 0, but it has
already invoked System::commit on the null base with the full rounded size
(2 blocks of 2^27 rounded to the 2^26 slab alignment = 2^28 bytes), because
the commit precedes the null check. -/
theorem slab_allocateBulk_commits_null_base :
    refusedBulkRun.1 = 0 ∧
    refusedBulkRun.2.2.2.commits = [(0, 2 ^ 28)] :=
  ⟨rfl, rfl⟩

/-- C10: allocate(0) is dispatched exactly like an order-3 request:
sizeToOrder 0 = 3 and roundUpPowerOf2 0 = 0, and on the freshly created
basic instance it returns a non-null address (the small tier's first
partition base) whose allocationSize is 8. -/
theorem allocate_zero_dispatches_as_order3 :
    sizeToOrder 0 = 3 ∧
    roundUpPowerOf2 0 = 0 ∧
    zeroSizeRun.1 = some (2 ^ 34 + 2 ^ 27 + 2 ^ 26) ∧
    Director.allocationSize zeroSizeRun.2.1 (2 ^ 34 + 2 ^ 27 + 2 ^ 26) = 8 :=
  ⟨by decide, by decide, rfl, rfl⟩

/-!  Supporting list lemmas shared by the remaining developments. -/

theorem getD_set_elsewhere (l : List Nat) (i j a d : Nat) (h : j ≠ i) :
    (l.set i a).getD j d = l.getD j d := by
  induction l generalizing i j with
  | nil => simp
  | cons x xs ih =>
    cases i with
    | zero =>
      cases j with
      | zero => exact absurd rfl h
      | succ j2 => simp [List.getD]
    | succ i2 =>
      cases j with
      | zero => simp [List.getD]
      | succ j2 => simpa [List.getD] using ih i2 j2 (by omega)

theorem getD_set_self (l : List Nat) (i a d : Nat) (h : i < l.length) :
    (l.set i a).getD i d = a := by
  induction l generalizing i with
  | nil => simp at h
  | cons x xs ih =>
    cases i with
    | zero => simp [List.getD]
    | succ i2 => simpa [List.getD] using ih i2 (by simpa using h)

theorem replicate_getD_zero (n k : Nat) : (List.replicate n (0 : Nat)).getD k 0 = 0 := by
  simp [List.getD]

theorem foldl_invariant {α β : Type} (P : β → Prop) (f : β → α → β) (l : List α)
    (h : ∀ acc x, x ∈ l → P acc → P (f acc x)) :
    ∀ acc, P acc → P (l.foldl f acc) := by
  induction l with
  | nil => intro acc hacc; exact hacc
  | cons x xs ih =>
    intro acc hacc
    exact ih (fun a y hy ha => h a y (List.mem_cons_of_mem x hy) ha) (f acc x)
      (h acc x (List.mem_cons_self x xs) hacc)

/-!  C7: operations on an unmanaged address are no-ops. -/

theorem emptyQA_inSpace_false (p : Nat) : emptyQuantumAllocator.inSpace p = false := by
  simp [emptyQuantumAllocator, mkQuantumAllocator, QuantumAllocator.inSpace, orderToSize,
    twoToOrder]

theorem findQALoop_none (d : Director) (p : Nat)
    (h : ∀ i, (d.getQuantumAllocator i).inSpace p = false) :
    ∀ n i, Director.findQALoop d p i n = none := by
  intro n
  induction n with
  | zero => intro i; rfl
  | succ n ih => intro i; simp [Director.findQALoop, h i]; exact ih (i + 1)

theorem slabFindLoop_notfound (sa : SlabAllocator) (p : Nat)
    (h : ∀ j, j < sa.maxCount →
      ((sa.slabs.getD j zeroSlab).inSpace p && sa.registry.isSet j) = false) :
    ∀ n i, i + n ≤ sa.maxCount → SlabAllocator.findLoop sa p i n = NOT_FOUND := by
  intro n
  induction n with
  | zero => intro i _; rfl
  | succ n ih =>
    intro i hb
    simp only [SlabAllocator.findLoop, h i (by omega), Bool.false_eq_true, if_false]
    exact ih (i + 1) (by omega)

theorem getQA_inSpace_false (d : Director) (p : Nat)
    (hqa : d.quantumAllocators.any (fun qa => qa.inSpace p) = false) :
    ∀ i, (d.getQuantumAllocator i).inSpace p = false := by
  intro i
  by_cases hi : i < d.quantumAllocators.length
  · rw [Director.getQuantumAllocator, List.getD_eq_getElem _ _ hi]
    simpa using List.any_eq_false.mp hqa _ (List.getElem_mem hi)
  · rw [Director.getQuantumAllocator, List.getD_eq_default _ _ (Nat.le_of_not_lt hi)]
    exact emptyQA_inSpace_false p

/-- C7: on an address no allocator of the instance manages (isManaged is
false), deallocate leaves the Director unchanged and allocationSize,
allocationBase and allocationSideData all return 0. -/
theorem unknown_address_operations_are_noops (d : Director) (p : Nat)
    (h : d.isManaged p = false) :
    d.deallocate p = d ∧ d.allocationSize p = 0 ∧ d.allocationBase p = 0 ∧
    d.allocationSideData p = 0 := by
  rw [Director.isManaged, Bool.or_eq_false_iff] at h
  obtain ⟨hqa, hslab⟩ := h
  have hqa2 := getQA_inSpace_false d p hqa
  have hfind : d.findQAContaining p = none :=
    findQALoop_none d p hqa2 d.quantumAllocators.length 0
  have hslab2 : ∀ j, j < d.slabAllocator.maxCount →
      ((d.slabAllocator.slabs.getD j zeroSlab).inSpace p &&
        d.slabAllocator.registry.isSet j) = false := by
    intro j hj
    have := List.any_eq_false.mp hslab j (List.mem_range.mpr hj)
    simpa using this
  have hsf : d.slabAllocator.find p = NOT_FOUND :=
    slabFindLoop_notfound d.slabAllocator p hslab2 d.slabAllocator.maxCount 0 (by omega)
  refine ⟨?_, ?_, ?_, ?_⟩
  · simp [Director.deallocate, hfind, SlabAllocator.deallocate, hsf]
  · simp [Director.allocationSize, hfind, SlabAllocator.allocationSize, hsf]
  · simp [Director.allocationBase, hfind, SlabAllocator.allocationBase, hsf]
  · simp [Director.allocationSideData, hfind, SlabAllocator.allocationSideData, hsf]

/-- C7 witness: address 1 lies below the basic instance's arena, is not
managed, and all four operations are no-ops on it. -/
theorem unknown_address_operations_are_noops_witness :
    basicDirector.isManaged 1 = false ∧
    (basicDirector.deallocate 1 = basicDirector ∧ basicDirector.allocationSize 1 = 0 ∧
     basicDirector.allocationBase 1 = 0 ∧ basicDirector.allocationSideData 1 = 0) :=
  ⟨rfl, unknown_address_operations_are_noops basicDirector 1 rfl⟩

/-!  C2 witness. -/

/-- C2 witness: the first two addresses of the bulk run at the concrete
index 0. -/
theorem allocateBulk_contiguous_eight_blocks_witness :
    bulkRun.2.1.getD 1 0 - bulkRun.2.1.getD 0 0 = 4096 :=
  allocateBulk_contiguous_eight_blocks.2 0 (by decide)

/-!  C5 amended: reallocate on null and on a power-of-two-sized block. -/

theorem roundUpPowerOf2_two_pow (k : Nat) (hk : k < 64) :
    roundUpPowerOf2 (2 ^ k) = 2 ^ k := by
  interval_cases k <;> decide

/-- C5 amended: reallocate(null, s) behaves exactly like allocate(s), and
for a live allocation a of power-of-two size (every allocate result is such),
reallocate(a, size(a)) returns a itself with the state unchanged. -/
theorem reallocate_null_and_same_size :
    (∀ (d : Director) (sys : Sys) (s : Nat),
      Director.reallocate d sys 0 s = Director.allocate d sys s) ∧
    (∀ (d : Director) (sys : Sys) (a k : Nat), a ≠ 0 → k < 64 →
      Director.allocationSize d a = 2 ^ k →
      Director.reallocate d sys a (Director.allocationSize d a) = (some a, d, sys)) := by
  constructor
  · intro d sys s; rfl
  · intro d sys a k ha hk hsize
    simp only [Director.reallocate]
    rw [if_neg ha, hsize, roundUpPowerOf2_two_pow k hk]
    simp

/-- C5 witness: reallocate(null, 8) equals allocate(8) on the basic
instance, and on the slab-only instance the 2^27-byte slab at 2^40 is
returned unchanged by reallocate(a, size(a)). -/
theorem reallocate_null_and_same_size_witness :
    Director.reallocate basicDirector sysInit 0 8 = Director.allocate basicDirector sysInit 8 ∧
    Director.allocationSize slabPow2Run.2.1 (2 ^ 40) = 2 ^ 27 ∧
    Director.reallocate slabPow2Run.2.1 slabPow2Run.2.2 (2 ^ 40)
        (Director.allocationSize slabPow2Run.2.1 (2 ^ 40)) =
      (some (2 ^ 40), slabPow2Run.2.1, slabPow2Run.2.2) :=
  ⟨reallocate_null_and_same_size.1 basicDirector sysInit 8, rfl,
   reallocate_null_and_same_size.2 slabPow2Run.2.1 slabPow2Run.2.2 (2 ^ 40) 27
     (by decide) (by decide) rfl⟩

/-!  C4 amended: stats slot 0 against the live per-order counts. -/

theorem statsAdd_getD_elsewhere (counts : List Nat) (slot n k : Nat) (h : k ≠ slot) :
    (statsAdd counts slot n).getD k 0 = counts.getD k 0 :=
  getD_set_elsewhere counts slot k _ 0 h

theorem statsAdd_length (counts : List Nat) (slot n : Nat) :
    (statsAdd counts slot n).length = counts.length :=
  List.length_set counts slot _

theorem quantumStatsCounts_offslot (qa : QuantumAllocator) (counts : List Nat) (k : Nat)
    (hqa : ∀ i < qa.partitionCount, qa.partitionRegistry.isSet i = true →
      3 ≤ (qa.getPartition i).quantumSizeOrder ∧ (qa.getPartition i).quantumSizeOrder ≤ 52)
    (hk : k < 3 ∨ 52 < k) :
    (qa.statsCounts counts).getD k 0 = counts.getD k 0 := by
  rw [QuantumAllocator.statsCounts]
  refine foldl_invariant (fun acc => acc.getD k 0 = counts.getD k 0) _ _ ?_ counts rfl
  intro acc i hi hacc
  by_cases hset : qa.partitionRegistry.isSet i = true
  · rw [if_pos hset, Partition.statsCounts, statsAdd_getD_elsewhere]
    · exact hacc
    · have hb := hqa i (List.mem_range.mp hi) hset
      rcases hk with hk | hk <;> omega
  · rw [if_neg hset]; exact hacc

theorem slabStatsCounts_offslot (sa : SlabAllocator) (counts : List Nat) (k : Nat)
    (hs : ∀ i < sa.maxCount, sa.registry.isSet i = true →
      3 ≤ sizeToOrder (sa.slabs.getD i zeroSlab).size ∧
      sizeToOrder (sa.slabs.getD i zeroSlab).size ≤ 52)
    (hk : k < 3 ∨ 52 < k) :
    (sa.statsCounts counts).getD k 0 = counts.getD k 0 := by
  rw [SlabAllocator.statsCounts]
  refine foldl_invariant (fun acc => acc.getD k 0 = counts.getD k 0) _ _ ?_ counts rfl
  intro acc i hi hacc
  by_cases hset : sa.registry.isSet i = true
  · rw [if_pos hset, statsAdd_getD_elsewhere]
    · exact hacc
    · have hb := hs i (List.mem_range.mp hi) hset
      rcases hk with hk | hk <;> omega
  · rw [if_neg hset]; exact hacc

theorem quantumStatsCounts_length (qa : QuantumAllocator) (counts : List Nat) :
    (qa.statsCounts counts).length = counts.length := by
  rw [QuantumAllocator.statsCounts]
  refine foldl_invariant (fun acc => acc.length = counts.length) _ _ ?_ counts rfl
  intro acc i _ hacc
  by_cases hset : qa.partitionRegistry.isSet i = true
  · rw [if_pos hset, Partition.statsCounts, statsAdd_length, hacc]
  · rw [if_neg hset]; exact hacc

theorem slabStatsCounts_length (sa : SlabAllocator) (counts : List Nat) :
    (sa.statsCounts counts).length = counts.length := by
  rw [SlabAllocator.statsCounts]
  refine foldl_invariant (fun acc => acc.length = counts.length) _ _ ?_ counts rfl
  intro acc i _ hacc
  by_cases hset : sa.registry.isSet i = true
  · rw [if_pos hset, statsAdd_length, hacc]
  · rw [if_neg hset]; exact hacc

theorem slotSum_split (c : List Nat) (lo m n : Nat) :
    slotSum c lo (m + n) = slotSum c lo m + slotSum c (lo + m) n := by
  induction n with
  | zero => simp [slotSum]
  | succ n ih =>
    have h1 : m + (n + 1) = (m + n) + 1 := by omega
    rw [h1]
    show slotSum c lo (m + n) + c.getD (lo + (m + n)) 0 = _
    rw [ih]
    show _ = slotSum c lo m + (slotSum c (lo + m) n + c.getD ((lo + m) + n) 0)
    rw [Nat.add_assoc lo m n]
    omega

theorem slotSum_congr (c c2 : List Nat) (lo n : Nat)
    (h : ∀ j < n, c.getD (lo + j) 0 = c2.getD (lo + j) 0) :
    slotSum c lo n = slotSum c2 lo n := by
  induction n with
  | zero => rfl
  | succ n ih =>
    show slotSum c lo n + c.getD (lo + n) 0 = slotSum c2 lo n + c2.getD (lo + n) 0
    rw [ih (fun j hj => h j (by omega)), h n (by omega)]

theorem slotSum_zero (c : List Nat) (lo n : Nat)
    (h : ∀ j < n, c.getD (lo + j) 0 = 0) :
    slotSum c lo n = 0 := by
  induction n with
  | zero => rfl
  | succ n ih =>
    show slotSum c lo n + c.getD (lo + n) 0 = 0
    rw [ih (fun j hj => h j (by omega)), h n (by omega)]

/-- C4 amended: whenever every live partition's quantum order and every live
slab's size order lie in the band [3, 52] (as every reachable allocation
does), stats leaves counts[0] = 1 + sum of counts[3..52]: the administrative
entry of slot 1 plus the live per-order counts. -/
theorem stats_slot0_eq_one_plus_live_sum (d : Director)
    (hqa : ∀ qa ∈ d.quantumAllocators, ∀ i < qa.partitionCount,
      qa.partitionRegistry.isSet i = true →
      3 ≤ (qa.getPartition i).quantumSizeOrder ∧ (qa.getPartition i).quantumSizeOrder ≤ 52)
    (hs : ∀ i < d.slabAllocator.maxCount, d.slabAllocator.registry.isSet i = true →
      3 ≤ sizeToOrder (d.slabAllocator.slabs.getD i zeroSlab).size ∧
      sizeToOrder (d.slabAllocator.slabs.getD i zeroSlab).size ≤ 52) :
    (Director.statsCounts d).getD 0 0 = 1 + slotSum (Director.statsCounts d) 3 50 := by
  rw [Director.statsCounts]
  set c1 := statsAdd (List.replicate 64 0) 1 1 with hc1
  set c2 := d.quantumAllocators.foldl (fun acc qa => qa.statsCounts acc) c1 with hc2
  set c3 := d.slabAllocator.statsCounts c2 with hc3
  have hoff2 : ∀ k, k < 3 ∨ 52 < k → c2.getD k 0 = c1.getD k 0 := by
    intro k hk
    rw [hc2]
    refine foldl_invariant (fun acc => acc.getD k 0 = c1.getD k 0) _ _ ?_ c1 rfl
    intro acc qa hmem hacc
    rw [quantumStatsCounts_offslot qa acc k (hqa qa hmem) hk]
    exact hacc
  have hoff3 : ∀ k, k < 3 ∨ 52 < k → c3.getD k 0 = c1.getD k 0 := by
    intro k hk
    rw [hc3, slabStatsCounts_offslot d.slabAllocator c2 k hs hk]
    exact hoff2 k hk
  have hlen2 : c2.length = c1.length := by
    rw [hc2]
    refine foldl_invariant (fun acc => acc.length = c1.length) _ _ ?_ c1 rfl
    intro acc qa _ hacc
    rw [quantumStatsCounts_length, hacc]
  have hlen3 : c3.length = 64 := by
    rw [hc3, slabStatsCounts_length, hlen2, hc1, statsAdd_length]
    simp
  have hget0 : ((c3.set 0 (slotSum c3 1 63)).getD 0 0) = slotSum c3 1 63 :=
    getD_set_self c3 0 _ 0 (by omega)
  rw [hget0]
  have hsplitA : slotSum c3 1 63 = slotSum c3 1 2 + slotSum c3 3 61 := by
    have := slotSum_split c3 1 2 61
    simpa using this
  have hsplitB : slotSum c3 3 61 = slotSum c3 3 50 + slotSum c3 53 11 := by
    have := slotSum_split c3 3 50 11
    simpa using this
  have h12 : slotSum c3 1 2 = 1 := by
    show slotSum c3 1 1 + c3.getD 2 0 = 1
    show (slotSum c3 1 0 + c3.getD 1 0) + c3.getD 2 0 = 1
    have e1 : c3.getD 1 0 = 1 := by
      rw [hoff3 1 (by left; omega), hc1]
      exact getD_set_self _ 1 1 0 (by simp)
    have e2 : c3.getD 2 0 = 0 := by
      rw [hoff3 2 (by left; omega), hc1, statsAdd_getD_elsewhere _ _ _ _ (by omega)]
      exact replicate_getD_zero 64 2
    rw [e1, e2]
    simp [slotSum]
  have h53 : slotSum c3 53 11 = 0 := by
    refine slotSum_zero c3 53 11 ?_
    intro j hj
    rw [hoff3 (53 + j) (by right; omega), hc1,
      statsAdd_getD_elsewhere _ _ _ _ (by omega)]
    exact replicate_getD_zero 64 (53 + j)
  have hlast : slotSum (c3.set 0 (slotSum c3 1 63)) 3 50 = slotSum c3 3 50 := by
    refine slotSum_congr _ _ 3 50 ?_
    intro j hj
    exact getD_set_elsewhere c3 0 (3 + j) _ 0 (by omega)
  rw [hlast, hsplitA, hsplitB, h12, h53]
  omega

/-- C4 witness: the identity instantiated on the freshly created basic
instance, whose live sets are empty. -/
theorem stats_slot0_eq_one_plus_live_sum_witness :
    (Director.statsCounts basicDirector).getD 0 0 =
      1 + slotSum (Director.statsCounts basicDirector) 3 50 :=
  stats_slot0_eq_one_plus_live_sum basicDirector (by decide) (by decide)

/-!  C6: rollback of conditionallySetMaskRange. -/

theorem getBits_oob (r : Registry) (w : Nat) (h : r.bits.length ≤ w) :
    r.getBits w = 0 :=
  List.getD_eq_default r.bits 0 h

theorem length_setWord (r : Registry) (w v : Nat) :
    (r.setWord w v).bits.length = r.bits.length :=
  List.length_set r.bits w v

theorem getBits_setWord_other (r : Registry) (w v w2 : Nat) (h : w2 ≠ w) :
    (r.setWord w v).getBits w2 = r.getBits w2 :=
  getD_set_elsewhere r.bits w w2 v 0 h

theorem getBits_setWord_self (r : Registry) (w v : Nat) :
    (r.setWord w v).getBits w = v ∨
    ((r.setWord w v).getBits w = r.getBits w ∧ r.bits.length ≤ w) := by
  by_cases h : w < r.bits.length
  · exact Or.inl (getD_set_self r.bits w v 0 h)
  · right
    have hle := Nat.le_of_not_lt h
    constructor
    · rw [getBits_oob r w hle, Registry.getBits,
        List.getD_eq_default _ _ (by rw [length_setWord]; exact hle)]
    · exact hle

theorem clearMask_getBits_other (r : Registry) (w m w2 : Nat) (h : w2 ≠ w) :
    (r.clearMask w m).2.getBits w2 = r.getBits w2 := by
  rw [Registry.clearMask]
  by_cases hm : m = 0
  · rw [if_pos hm]
  · rw [if_neg hm]
    exact getBits_setWord_other r w _ w2 h

theorem clearMask_length (r : Registry) (w m : Nat) :
    (r.clearMask w m).2.bits.length = r.bits.length := by
  rw [Registry.clearMask]
  by_cases hm : m = 0
  · rw [if_pos hm]
  · rw [if_neg hm]; exact length_setWord r w _

theorem clearMask_getBits_self (r : Registry) (w m : Nat) :
    (r.clearMask w m).2.getBits w = r.getBits w &&& (ALL_ONES ^^^ m) ∨
    ((r.clearMask w m).2.getBits w = r.getBits w ∧ (m = 0 ∨ r.bits.length ≤ w)) := by
  rw [Registry.clearMask]
  by_cases hm : m = 0
  · rw [if_pos hm]; exact Or.inr ⟨rfl, Or.inl hm⟩
  · rw [if_neg hm]
    rcases getBits_setWord_self r w (r.getBits w &&& (ALL_ONES ^^^ m)) with h | ⟨h, hle⟩
    · exact Or.inl h
    · exact Or.inr ⟨h, Or.inr hle⟩

/-- Per-word effect of the middle-words rollback: every middle word within
the bits array is zeroed, every other word is untouched. -/
theorem clearMiddleWords_getBits (f : Nat) :
    ∀ (remaining i : Nat) (r : Registry) (w : Nat),
      (Registry.clearMiddleWords r f i remaining).getBits w =
        if f + i + 1 ≤ w ∧ w ≤ f + i + remaining ∧ w < r.bits.length then 0
        else r.getBits w := by
  intro remaining
  induction remaining with
  | zero =>
    intro i r w
    rw [Registry.clearMiddleWords]
    rw [if_neg (by omega : ¬ (f + i + 1 ≤ w ∧ w ≤ f + i + 0 ∧ w < r.bits.length))]
  | succ n ih =>
    intro i r w
    rw [Registry.clearMiddleWords]
    rw [ih (i + 1) ((r.clearMask (f + i + 1) ALL_ONES).2) w]
    rw [clearMask_length]
    by_cases hw : w = f + i + 1
    · subst hw
      rw [if_neg (by omega :
        ¬ (f + (i + 1) + 1 ≤ f + i + 1 ∧ f + i + 1 ≤ f + (i + 1) + n ∧
           f + i + 1 < r.bits.length))]
      rcases clearMask_getBits_self r (f + i + 1) ALL_ONES with h | ⟨h, hc⟩
      · rw [h, Nat.xor_self, Nat.and_zero]
        by_cases hlen : f + i + 1 < r.bits.length
        · rw [if_pos (by omega :
            f + i + 1 ≤ f + i + 1 ∧ f + i + 1 ≤ f + i + (n + 1) ∧
            f + i + 1 < r.bits.length)]
        · rw [if_neg (by omega :
            ¬ (f + i + 1 ≤ f + i + 1 ∧ f + i + 1 ≤ f + i + (n + 1) ∧
               f + i + 1 < r.bits.length))]
          exact (getBits_oob r _ (Nat.le_of_not_lt hlen)).symm
      · rcases hc with hc | hc
        · exact absurd hc (by decide)
        · rw [h, if_neg (by omega :
            ¬ (f + i + 1 ≤ f + i + 1 ∧ f + i + 1 ≤ f + i + (n + 1) ∧
               f + i + 1 < r.bits.length))]
    · rw [clearMask_getBits_other r (f + i + 1) ALL_ONES w hw]
      by_cases hin : f + i + 1 ≤ w ∧ w ≤ f + i + (n + 1) ∧ w < r.bits.length
      · rw [if_pos (by omega :
          f + (i + 1) + 1 ≤ w ∧ w ≤ f + (i + 1) + n ∧ w < r.bits.length), if_pos hin]
      · rw [if_neg (by omega), if_neg hin]

theorem clearMask_zero (r : Registry) (w : Nat) : r.clearMask w 0 = (true, r) := rfl

theorem ALL_ONES_testBit (i : Nat) : ALL_ONES.testBit i = decide (i < 64) := by
  have h : ALL_ONES = 2 ^ 64 - 1 := rfl
  rw [h, Nat.testBit_two_pow_sub_one]

theorem or_and_not_testBit (a fm i : Nat) (hfm : fm < TWO64)
    (h : ((a ||| fm) &&& (ALL_ONES ^^^ fm)).testBit i = true) : a.testBit i = true := by
  rw [Nat.testBit_and, Nat.testBit_or, Nat.testBit_xor, ALL_ONES_testBit] at h
  by_cases hi : i < 64
  · cases hb : fm.testBit i
    · simp [hb, hi] at h
      exact h
    · simp [hb, hi] at h
  · have hfb : fm.testBit i = false :=
      Nat.testBit_lt_two_pow
        (lt_of_lt_of_le hfm (Nat.pow_le_pow_right (by norm_num) (Nat.le_of_not_lt hi)))
    simp [hfb, hi] at h

theorem conditionallySetMaskO_spec (r : Registry) (oracle : List Bool) (w m : Nat) :
    (m = 0 ∧ r.conditionallySetMaskO oracle w m = (true, r, oracle)) ∨
    r.conditionallySetMaskO oracle w m =
      (true, r.setWord w (r.getBits w ||| m), (oracleNext oracle).2) ∨
    r.conditionallySetMaskO oracle w m = (false, r, (oracleNext oracle).2) := by
  rw [Registry.conditionallySetMaskO]
  by_cases hm : m = 0
  · rw [if_pos hm]; exact Or.inl ⟨hm, rfl⟩
  · rw [if_neg hm]
    rcases hor : oracleNext oracle with ⟨ok, rest⟩
    cases ok
    · right; right; simp
    · right; left; simp

/-- If a multi-word conditional set has set the first-word mask and `done`
middle words on top of an entry state `r0`, the rollback
`clearMaskRange f done fm 0` leaves no bit set that was not set in `r0`. -/
theorem rollback_subset (r0 r : Registry) (f fm done : Nat) (hfm : fm < TWO64)
    (hout : ∀ w, w ≠ f → ¬(f + 1 ≤ w ∧ w ≤ f + done) → r.getBits w = r0.getBits w)
    (hfirst : r.getBits f = r0.getBits f ||| fm ∨ r.getBits f = r0.getBits f) :
    ∀ w i, (((r.clearMaskRange f done fm 0).getBits w).testBit i = true) →
      (r0.getBits w).testBit i = true := by
  intro w i hbit
  rw [Registry.clearMaskRange] at hbit
  simp only [clearMask_zero] at hbit
  rw [clearMiddleWords_getBits f done 0 ((r.clearMask f fm).2) w] at hbit
  by_cases hmid : f + 0 + 1 ≤ w ∧ w ≤ f + 0 + done ∧ w < (r.clearMask f fm).2.bits.length
  · rw [if_pos hmid] at hbit
    simp at hbit
  · rw [if_neg hmid] at hbit
    by_cases hw : w = f
    · subst hw
      rcases clearMask_getBits_self r w fm with h | ⟨h, hc⟩
      · rw [h] at hbit
        rcases hfirst with h1 | h1
        · rw [h1] at hbit
          exact or_and_not_testBit _ fm i hfm hbit
        · rw [h1, Nat.testBit_and, Bool.and_eq_true] at hbit
          exact hbit.1
      · rw [h] at hbit
        rcases hc with hc | hc
        · subst hc
          rcases hfirst with h1 | h1
          · rw [h1, Nat.or_zero] at hbit; exact hbit
          · rw [h1] at hbit; exact hbit
        · rw [getBits_oob r w hc] at hbit
          simp at hbit
    · rw [clearMask_getBits_other r f fm w hw] at hbit
      by_cases hrange : f + 1 ≤ w ∧ w ≤ f + done
      · have hoob : r.bits.length ≤ w := by
          rw [clearMask_length] at hmid
          omega
        rw [getBits_oob r w hoob] at hbit
        simp at hbit
      · rw [hout w hw hrange] at hbit
        exact hbit

/-- Loop invariant for the middle-word loop: starting from a state that is
`r0` plus the first-word mask and `done` middle words, a failing run leaves
no bit set that was not set in `r0`. -/
theorem condSetMaskRangeLoop_rollback (f fm lm : Nat) (hfm : fm < TWO64) (r0 : Registry) :
    ∀ (remaining : Nat) (r : Registry) (oracle : List Bool) (done : Nat),
      (∀ w, w ≠ f → ¬(f + 1 ≤ w ∧ w ≤ f + done) → r.getBits w = r0.getBits w) →
      (r.getBits f = r0.getBits f ||| fm ∨ r.getBits f = r0.getBits f) →
      (Registry.condSetMaskRangeLoop f fm lm r oracle done remaining).1 = false →
      ∀ w i,
        (((Registry.condSetMaskRangeLoop f fm lm r oracle done remaining).2.1).getBits
            w).testBit i = true →
        (r0.getBits w).testBit i = true := by
  intro remaining
  induction remaining with
  | zero =>
    intro r oracle done hout hfirst hfail w i hbit
    rcases conditionallySetMaskO_spec r oracle (f + done + 1) lm with ⟨hm, hspec⟩ | hspec | hspec
    · rw [Registry.condSetMaskRangeLoop, hspec] at hfail
      simp at hfail
    · rw [Registry.condSetMaskRangeLoop, hspec] at hfail
      simp at hfail
    · rw [Registry.condSetMaskRangeLoop, hspec] at hbit
      simp only [if_false, Bool.false_eq_true] at hbit
      exact rollback_subset r0 r f fm done hfm hout hfirst w i hbit
  | succ n ih =>
    intro r oracle done hout hfirst hfail w i hbit
    rcases conditionallySetMaskO_spec r oracle (f + done + 1) ALL_ONES with ⟨hm, _⟩ | hspec | hspec
    · exact absurd hm (by decide)
    · rw [Registry.condSetMaskRangeLoop, hspec] at hfail hbit
      simp only [if_true] at hfail hbit
      have hout2 : ∀ w2, w2 ≠ f → ¬(f + 1 ≤ w2 ∧ w2 ≤ f + (done + 1)) →
          (r.setWord (f + done + 1) (r.getBits (f + done + 1) ||| ALL_ONES)).getBits w2 =
            r0.getBits w2 := by
        intro w2 hw2 hr
        rw [getBits_setWord_other _ _ _ _ (by omega : w2 ≠ f + done + 1)]
        exact hout w2 hw2 (by omega)
      have hfirst2 :
          (r.setWord (f + done + 1) (r.getBits (f + done + 1) ||| ALL_ONES)).getBits f =
            r0.getBits f ||| fm ∨
          (r.setWord (f + done + 1) (r.getBits (f + done + 1) ||| ALL_ONES)).getBits f =
            r0.getBits f := by
        rw [getBits_setWord_other _ _ _ _ (by omega : f ≠ f + done + 1)]
        exact hfirst
      exact ih _ _ _ hout2 hfirst2 hfail w i hbit
    · rw [Registry.condSetMaskRangeLoop, hspec] at hbit
      simp only [if_false, Bool.false_eq_true] at hbit
      exact rollback_subset r0 r f fm done hfm hout hfirst w i hbit

/-- C6 (amended): if conditionallySetMaskRange (run under a weak-CAS oracle,
with no concurrent interference) returns false, the rollback leaves no bit
set anywhere that was not already set on entry; together with the
counterexample below, the restricted-equality reading additionally needs the
touched bits clear on entry. -/
theorem conditionallySetMaskRange_rollback (r : Registry) (oracle : List Bool)
    (firstWordIndex count firstMask lastMask : Nat) (hfm : firstMask < TWO64)
    (hfail :
      (r.conditionallySetMaskRangeO oracle firstWordIndex count firstMask lastMask).1 = false) :
    ∀ w i,
      (((r.conditionallySetMaskRangeO oracle firstWordIndex count firstMask
            lastMask).2.1).getBits w).testBit i = true →
      (r.getBits w).testBit i = true := by
  intro w i hbit
  rcases conditionallySetMaskO_spec r oracle firstWordIndex firstMask with
    ⟨hm, hspec⟩ | hspec | hspec
  · rw [Registry.conditionallySetMaskRangeO, hspec] at hbit hfail
    simp only [if_true] at hbit hfail
    exact condSetMaskRangeLoop_rollback firstWordIndex firstMask lastMask hfm r count r oracle 0
      (fun w2 _ _ => rfl) (Or.inr rfl) hfail w i hbit
  · rw [Registry.conditionallySetMaskRangeO, hspec] at hbit hfail
    simp only [if_true] at hbit hfail
    have hfirst :
        (r.setWord firstWordIndex (r.getBits firstWordIndex ||| firstMask)).getBits
            firstWordIndex = r.getBits firstWordIndex ||| firstMask ∨
        (r.setWord firstWordIndex (r.getBits firstWordIndex ||| firstMask)).getBits
            firstWordIndex = r.getBits firstWordIndex := by
      rcases getBits_setWord_self r firstWordIndex (r.getBits firstWordIndex ||| firstMask)
        with h | ⟨h, _⟩
      · exact Or.inl h
      · exact Or.inr h
    exact condSetMaskRangeLoop_rollback firstWordIndex firstMask lastMask hfm r count _
      (oracleNext oracle).2 0
      (fun w2 hw2 _ => getBits_setWord_other r firstWordIndex _ w2 hw2) hfirst hfail w i hbit
  · rw [Registry.conditionallySetMaskRangeO, hspec] at hbit
    simp only [if_false, Bool.false_eq_true] at hbit
    exact hbit

/-- C6 rollback witness: a 128-bit registry with bit 100 set; a weak-CAS
run that sets the first word and then fails on the middle word reports
false, leaves bit 100 (word 1, bit 36) set, and the theorem instance
confirms the bit was set on entry. -/
theorem conditionallySetMaskRange_rollback_witness :
    ((((mkRegistry 128).set 100).2).conditionallySetMaskRangeO [true, false] 0 1 5 3).1 = false ∧
    (((((mkRegistry 128).set 100).2).conditionallySetMaskRangeO
        [true, false] 0 1 5 3).2.1.getBits 1).testBit 36 = true ∧
    ((((mkRegistry 128).set 100).2).getBits 1).testBit 36 = true :=
  ⟨rfl, rfl,
    conditionallySetMaskRange_rollback (((mkRegistry 128).set 100).2) [true, false] 0 1 5 3
      (by decide) rfl 1 36 rfl⟩

/-- C6 counterexample to the claim's restricted-equality conclusion: bit 3
lies inside the first-word mask and is set on entry; the run's first
compare-exchange succeeds, the middle word fails, and the rollback clears
the whole first-word mask, so a touched bit that was set on entry is clear
on exit. -/
theorem rollback_clears_preexisting_touched_bit :
    ((((mkRegistry 128).set 3).2).getBits 0).testBit 3 = true ∧
    ((((mkRegistry 128).set 3).2).conditionallySetMaskRangeO [true, false] 0 1 8 3).1 = false ∧
    (((((mkRegistry 128).set 3).2).conditionallySetMaskRangeO
        [true, false] 0 1 8 3).2.1.getBits 0).testBit 3 = false :=
  ⟨rfl, rfl, rfl⟩

end QBA
